import Mathlib

/-!
# A shallow embedding of Sparkling's context facade and runtime library

This file embeds, in Lean 4, the parts of the Sparkling scripting-language
runtime that live in `src/ctx.c`, `src/ctx.h` and `src/rtlb.c`:

* the tagged value model (`SpnValue`), with IEEE doubles idealized as exact
  rationals extended with a NaN element (`SpnFloat`);
* the native-callable ABI: every embedded callable receives the caller's
  result slot and returns a `NativeResult` recording the integer status, the
  final contents of the result slot, the runtime error message (if one was
  set via `spn_ctx_runtime_error`) and the bytes written to stdout;
* the string library (`rtlb_substr` et al., `rtlb_split`, `rtlb_join`), the
  array library (`rtlb_sort`, `rtlb_concat`), the io library (`rtlb_printf`,
  `rtlb_readfile`), `rtlb_range`, `rtlb_compile` and `rtlb_exprtofn`;
* the context facade of `ctx.c` (`spn_ctx_loadstring`, `spn_ctx_execstring`,
  `spn_ctx_geterrmsg`, ...), with the parser, compiler, virtual machine and
  file system — which are external to the three source files — abstracted as
  oracle functions bundled in `CtxEnv`.

Machine `long`s are embedded as `Int` (no arithmetic in the embedded code
paths overflows) and C strings as `List Char`; the embedded strings are
assumed free of interior NUL bytes, which is the regime all the claims
quantify over.
-/

/-- An exact, unnormalized rational: the value `n / (dm1 + 1)`.  Storing the
denominator minus one keeps it positive by construction, so no invariant is
needed and all operations are plain integer arithmetic (which the kernel
evaluates, unlike Mathlib's normalizing `Rat` operations).  `toRat` gives
the mathematical value. -/
structure Frac where
  n : ℤ
  dm1 : ℕ
deriving DecidableEq, Repr

namespace Frac

/-- The (positive) denominator. -/
def den (x : Frac) : ℤ := (x.dm1 : ℤ) + 1

/-- The rational value of a fraction. -/
def toRat (x : Frac) : ℚ := (x.n : ℚ) / ((x.dm1 : ℚ) + 1)

/-- Exact addition (no normalization). -/
def add (x y : Frac) : Frac :=
  ⟨x.n * y.den + y.n * x.den, (x.dm1 + 1) * (y.dm1 + 1) - 1⟩

/-- Exact multiplication (no normalization). -/
def mul (x y : Frac) : Frac :=
  ⟨x.n * y.n, (x.dm1 + 1) * (y.dm1 + 1) - 1⟩

/-- Comparison `x <= y`, by cross-multiplication with the positive
denominators. -/
def ble (x y : Frac) : Bool := decide (x.n * y.den ≤ y.n * x.den)

/-- Comparison `x < y`. -/
def blt (x y : Frac) : Bool := decide (x.n * y.den < y.n * x.den)

/-- The fraction `i / 1`. -/
def ofInt (i : ℤ) : Frac := ⟨i, 0⟩

theorem den_cast_pos (x : Frac) : (0 : ℚ) < (x.dm1 : ℚ) + 1 := by
  have : (0 : ℚ) ≤ (x.dm1 : ℚ) := Nat.cast_nonneg x.dm1
  linarith

theorem toRat_add (x y : Frac) : (x.add y).toRat = x.toRat + y.toRat := by
  unfold toRat add den
  have hxy : ((x.dm1 + 1) * (y.dm1 + 1) - 1 + 1 : ℕ) = (x.dm1 + 1) * (y.dm1 + 1) := by
    have h1 : 1 ≤ (x.dm1 + 1) * (y.dm1 + 1) := Nat.one_le_iff_ne_zero.mpr (by positivity)
    omega
  have hcast : (((x.dm1 + 1) * (y.dm1 + 1) - 1 : ℕ) : ℚ) + 1 =
      ((x.dm1 : ℚ) + 1) * ((y.dm1 : ℚ) + 1) := by
    have := congrArg (fun m : ℕ => (m : ℚ)) hxy
    push_cast at this
    linarith
  simp only [hcast]
  have hx := den_cast_pos x
  have hy := den_cast_pos y
  field_simp

theorem toRat_mul (x y : Frac) : (x.mul y).toRat = x.toRat * y.toRat := by
  unfold toRat mul
  have hxy : ((x.dm1 + 1) * (y.dm1 + 1) - 1 + 1 : ℕ) = (x.dm1 + 1) * (y.dm1 + 1) := by
    have h1 : 1 ≤ (x.dm1 + 1) * (y.dm1 + 1) := Nat.one_le_iff_ne_zero.mpr (by positivity)
    omega
  have hcast : (((x.dm1 + 1) * (y.dm1 + 1) - 1 : ℕ) : ℚ) + 1 =
      ((x.dm1 : ℚ) + 1) * ((y.dm1 : ℚ) + 1) := by
    have := congrArg (fun m : ℕ => (m : ℚ)) hxy
    push_cast at this
    linarith
  simp only [hcast]
  have hx := den_cast_pos x
  have hy := den_cast_pos y
  field_simp

theorem ble_iff (x y : Frac) : ble x y = true ↔ x.toRat ≤ y.toRat := by
  unfold ble toRat den
  rw [decide_eq_true_iff, div_le_div_iff (den_cast_pos x) (den_cast_pos y)]
  constructor
  · intro h
    exact_mod_cast h
  · intro h
    exact_mod_cast h

theorem blt_iff (x y : Frac) : blt x y = true ↔ x.toRat < y.toRat := by
  unfold blt toRat den
  rw [decide_eq_true_iff, div_lt_div_iff (den_cast_pos x) (den_cast_pos y)]
  constructor
  · intro h
    exact_mod_cast h
  · intro h
    exact_mod_cast h

theorem toRat_ofInt (i : ℤ) : (ofInt i).toRat = (i : ℚ) := by
  unfold ofInt toRat
  norm_num

end Frac

/-- An IEEE-754 double, idealized: an exact rational or NaN.  Every
comparison involving NaN is false and NaN propagates through arithmetic,
exactly as the C comparisons and arithmetic on doubles behave on these
operations.  (Signed infinities and rounding do not occur in any of the
embedded code paths, which only add and multiply values a C program obtains
from integer literals and arguments.) -/
inductive SpnFloat where
  | nan : SpnFloat
  | num : Frac → SpnFloat
deriving DecidableEq, Repr

namespace SpnFloat

/-- Addition of doubles; NaN propagates. -/
def add : SpnFloat → SpnFloat → SpnFloat
  | num a, num b => num (a.add b)
  | _, _ => nan

/-- Multiplication of doubles; NaN propagates. -/
def mul : SpnFloat → SpnFloat → SpnFloat
  | num a, num b => num (a.mul b)
  | _, _ => nan

/-- The C comparison `x <= y` on doubles: false whenever an operand is NaN. -/
def fle : SpnFloat → SpnFloat → Bool
  | num a, num b => a.ble b
  | _, _ => false

/-- The C comparison `x > y` on doubles: false whenever an operand is NaN. -/
def fgt : SpnFloat → SpnFloat → Bool
  | num a, num b => b.blt a
  | _, _ => false

/-- Conversion of a C `long` to a double (exact in the embedded range). -/
def ofInt (i : ℤ) : SpnFloat := num (Frac.ofInt i)

/-- Conversion of a loop counter to a double. -/
def ofNat (n : ℕ) : SpnFloat := num (Frac.ofInt n)

end SpnFloat

/-- The tagged Sparkling value (`SpnValue` in `api.h`); the variants that the
claims under study exercise.  Arrays are embedded by their contents (the
in-place array mutations of `rtlb.c` are embedded as functions returning the
new contents), functions by the identifier of their backing bytecode, weak
userinfo values by the raw pointer they copy. -/
inductive SpnValue where
  | nil : SpnValue
  | bool : Bool → SpnValue
  | int : ℤ → SpnValue
  | float : SpnFloat → SpnValue
  | str : List Char → SpnValue
  | arr : List SpnValue → SpnValue
  | func : ℕ → SpnValue
  | weakuserinfo : ℕ → SpnValue

namespace SpnValue

/-- `isstring()` of `api.h`. -/
def isstring : SpnValue → Bool
  | str _ => true
  | _ => false

/-- `isint()` of `api.h`. -/
def isint : SpnValue → Bool
  | int _ => true
  | _ => false

/-- `isfloat()` of `api.h`. -/
def isfloat : SpnValue → Bool
  | float _ => true
  | _ => false

/-- `isnum()` of `api.h`: an int or a float. -/
def isnum : SpnValue → Bool
  | int _ => true
  | float _ => true
  | _ => false

/-- `isarray()` of `api.h`. -/
def isarray : SpnValue → Bool
  | arr _ => true
  | _ => false

/-- `isbool()` of `api.h`. -/
def isbool : SpnValue → Bool
  | bool _ => true
  | _ => false

/-- `isfunc()` of `api.h`. -/
def isfunc : SpnValue → Bool
  | func _ => true
  | _ => false

end SpnValue

/-- Modelled from the spec: `spn_type_name` (declared in `api.h`, defined in
the absent `api.c`) — "human-readable string used in error messages" keyed by
the type tag (spec §4.1). -/
def spn_type_name : SpnValue → String
  | SpnValue.nil => "nil"
  | SpnValue.bool _ => "bool"
  | SpnValue.int _ => "int"
  | SpnValue.float _ => "float"
  | SpnValue.str _ => "string"
  | SpnValue.arr _ => "array"
  | SpnValue.func _ => "function"
  | SpnValue.weakuserinfo _ => "userinfo"

/-- The comparability class of a value: numbers are mutually comparable,
strings are mutually comparable, nothing else compares (spec §3). -/
inductive CompClass where
  | numeric : CompClass
  | stringy : CompClass
deriving DecidableEq, Repr

/-- The comparability class of a value, if it has one. -/
def compClass : SpnValue → Option CompClass
  | SpnValue.int _ => some CompClass.numeric
  | SpnValue.float _ => some CompClass.numeric
  | SpnValue.str _ => some CompClass.stringy
  | _ => none

/-- Modelled from the spec: `spn_values_comparable` (defined in the absent
`api.c`) — "Int and Float are mutually comparable; strings compare
lexicographically; other combinations are uncomparable" (spec §3). -/
def spn_values_comparable (a b : SpnValue) : Bool :=
  match compClass a, compClass b with
  | some x, some y => decide (x = y)
  | _, _ => false

/-- The numeric contents of an int or float value, as an extended rational. -/
def numVal : SpnValue → SpnFloat
  | SpnValue.int i => SpnFloat.ofInt i
  | SpnValue.float f => f
  | _ => SpnFloat.nan

/-- Modelled from the spec: `spn_value_compare` (defined in the absent
`api.c`), restricted to comparable pairs — numbers compare by numeric value
(cross-comparing ints and floats), strings lexicographically (spec §3).  The
callers embedded here invoke it only after `spn_values_comparable`; on other
inputs (and on NaN, which no claim exercises) it returns 0. -/
def spn_value_compare (a b : SpnValue) : ℤ :=
  match a, b with
  | SpnValue.str s, SpnValue.str t =>
      if s < t then -1 else if t < s then 1 else 0
  | x, y =>
      match numVal x, numVal y with
      | SpnFloat.num p, SpnFloat.num q =>
          if p.blt q then -1 else if q.blt p then 1 else 0
      | _, _ => 0

/-- The outcome of one embedded native callable, following the native-call
ABI of `vm.h`: the returned status, the final contents of the caller's
result slot (`*ret`), the runtime error message passed to
`spn_ctx_runtime_error` if any, and the bytes the callable wrote to stdout. -/
structure NativeResult where
  status : ℤ
  ret : SpnValue
  err : Option String
  out : List Char

/-- A successful return: status 0, result slot written, no error. -/
def nOk (ret : SpnValue) (out : List Char) : NativeResult :=
  ⟨0, ret, none, out⟩

/-- An error return: nonzero status, result slot left as the caller set it,
error message recorded via `spn_ctx_runtime_error`. -/
def nErr (status : ℤ) (ret0 : SpnValue) (msg : String) : NativeResult :=
  ⟨status, ret0, some msg, []⟩

/-! ## The substring functions (`rtlb.c` lines 672–780) -/

/-- `rtlb_aux_substr` (`rtlb.c:672`): bounds-check `begin`/`length` against
the string length and build the new substring. -/
def rtlb_aux_substr (ret0 : SpnValue) (s : List Char) (begin_ length : ℤ) :
    NativeResult :=
  if begin_ < 0 ∨ begin_ > (s.length : ℤ) then
    nErr (-1) ret0 "starting index is negative or too high"
  else if length < 0 ∨ length > (s.length : ℤ) then
    nErr (-2) ret0 "length is negative or too big"
  else if begin_ + length > (s.length : ℤ) then
    nErr (-3) ret0 "end of substring is out of bounds"
  else
    nOk (SpnValue.str ((s.drop begin_.toNat).take length.toNat)) []

/-- `rtlb_substr` (`rtlb.c:701`): argument validation, then `rtlb_aux_substr`. -/
def rtlb_substr (ret0 : SpnValue) (argv : List SpnValue) : NativeResult :=
  match argv with
  | [a0, a1, a2] =>
    match a0 with
    | SpnValue.str s =>
      match a1, a2 with
      | SpnValue.int b, SpnValue.int l => rtlb_aux_substr ret0 s b l
      | _, _ => nErr (-2) ret0 "second and third argument must be integers"
    | _ => nErr (-2) ret0 "first argument must be a string"
  | _ => nErr (-1) ret0 "exactly three arguments are required"

example :
    rtlb_substr SpnValue.nil
      [SpnValue.str ['a', 'b', 'c'], SpnValue.int 1, SpnValue.int 2] =
    nOk (SpnValue.str ['b', 'c']) [] := rfl

example :
    rtlb_substr SpnValue.nil
      [SpnValue.str ['a', 'b', 'c'], SpnValue.int 2, SpnValue.int 2] =
    nErr (-3) SpnValue.nil "end of substring is out of bounds" := rfl

/-! ## The split and join functions (`rtlb.c` lines 782–837 and 1118–1195) -/

/-- Byte-wise prefix test: whether `sep` occurs at the start of `s`
(the anchored comparison underlying `strstr`). -/
def prefOf : List Char → List Char → Bool
  | [], _ => true
  | _ :: _, [] => false
  | a :: as, b :: bs => a == b && prefOf as bs

/-- `strstr(s, sep)`: the index of the leftmost occurrence of `sep` in `s`,
or `none` (`NULL`). -/
def findSub (sep : List Char) : List Char → Option ℕ
  | [] => if prefOf sep [] then some 0 else none
  | c :: tl =>
    if prefOf sep (c :: tl) then some 0
    else (findSub sep tl).map (fun n => n + 1)

theorem prefOf_iff (sep s : List Char) :
    prefOf sep s = true ↔ ∃ t, s = sep ++ t := by
  induction sep generalizing s with
  | nil => simp [prefOf]
  | cons a as ih =>
    cases s with
    | nil =>
      simp only [prefOf, Bool.false_eq_true, false_iff]
      rintro ⟨t, ht⟩
      exact List.cons_ne_nil a (as ++ t) ht.symm
    | cons b bs =>
      simp only [prefOf, Bool.and_eq_true, beq_iff_eq, ih, List.cons_append]
      constructor
      · rintro ⟨rfl, t, rfl⟩
        exact ⟨t, rfl⟩
      · rintro ⟨t, ht⟩
        cases ht
        exact ⟨rfl, t, rfl⟩

theorem findSub_some (sep : List Char) :
    ∀ (s : List Char) (i : ℕ), findSub sep s = some i →
      i + sep.length ≤ s.length ∧
        s.drop i = sep ++ s.drop (i + sep.length) := by
  intro s
  induction s with
  | nil =>
    intro i h
    simp only [findSub] at h
    cases hp : prefOf sep [] with
    | false =>
      rw [hp] at h
      simp at h
    | true =>
      rw [hp, if_pos rfl] at h
      cases h
      rcases (prefOf_iff sep []).mp hp with ⟨t, ht⟩
      have hsep : sep = [] := (List.append_eq_nil.mp ht.symm).1
      simp [hsep]
  | cons c tl ih =>
    intro i h
    simp only [findSub] at h
    cases hp : prefOf sep (c :: tl) with
    | true =>
      rw [hp, if_pos rfl] at h
      cases h
      rcases (prefOf_iff sep (c :: tl)).mp hp with ⟨t, ht⟩
      constructor
      · have hl : (c :: tl).length = sep.length + t.length := by
          rw [ht]; simp
        omega
      · rw [Nat.zero_add, List.drop_zero, ht, List.drop_left]
    | false =>
      rw [hp] at h
      simp only [Bool.false_eq_true, if_false, Option.map_eq_some'] at h
      rcases h with ⟨j, hj, hji⟩
      subst hji
      rcases ih j hj with ⟨h1, h2⟩
      constructor
      · simp only [List.length_cons]
        omega
      · have e1 : (c :: tl).drop (j + 1) = tl.drop j := rfl
        have e2 : j + 1 + sep.length = (j + sep.length) + 1 := by omega
        rw [e1, e2, List.drop_succ_cons]
        exact h2

/-- The piece-collecting loop of `rtlb_split` (`rtlb.c:812-834`): the piece
before the leftmost occurrence of the separator, then continue past the
separator; when no occurrence is left, the final piece runs to the end of
the string.  The loop advances by at least one character per iteration
(the caller has rejected an empty separator), so a fuel of `s.length + 1`
makes the recursion structural without changing its value. -/
def spn_splitFuel (sep : List Char) : ℕ → List Char → List (List Char)
  | 0, s => [s]
  | fuel + 1, s =>
    match findSub sep s with
    | none => [s]
    | some i => s.take i :: spn_splitFuel sep fuel (s.drop (i + sep.length))

/-- The piece list `rtlb_split` builds for a non-empty separator. -/
def spn_splitList (sep s : List Char) : List (List Char) :=
  spn_splitFuel sep (s.length + 1) s

theorem spn_splitFuel_ne_nil (sep : List Char) :
    ∀ (fuel : ℕ) (s : List Char), spn_splitFuel sep fuel s ≠ [] := by
  intro fuel s
  cases fuel with
  | zero => simp [spn_splitFuel]
  | succ n =>
    simp only [spn_splitFuel]
    cases findSub sep s with
    | none => simp
    | some i => simp

/-- The concatenation loop of `rtlb_join` (`rtlb.c:1145-1192`): the first
piece verbatim, every further piece preceded by the delimiter; an empty
piece list yields the empty string. -/
def spn_joinPieces (sep : List Char) : List (List Char) → List Char
  | [] => []
  | p :: ps => ps.foldl (fun acc q => acc ++ sep ++ q) p

/-- The tail of a join: every piece preceded by the delimiter. -/
def joinTail (sep : List Char) : List (List Char) → List Char
  | [] => []
  | q :: qs => sep ++ q ++ joinTail sep qs

theorem foldl_join_eq (sep : List Char) :
    ∀ (ps : List (List Char)) (acc : List Char),
      ps.foldl (fun acc q => acc ++ sep ++ q) acc = acc ++ joinTail sep ps := by
  intro ps
  induction ps with
  | nil => intro acc; simp [joinTail]
  | cons q qs ih =>
    intro acc
    simp only [List.foldl_cons, joinTail, ih (acc ++ sep ++ q)]
    simp [List.append_assoc]

theorem spn_joinPieces_cons (sep p : List Char) (ps : List (List Char)) :
    spn_joinPieces sep (p :: ps) = p ++ joinTail sep ps :=
  foldl_join_eq sep ps p

/-- The split/join round trip at the level of raw character lists,
parametrized by the split loop's fuel. -/
theorem splitFuel_join_roundtrip (sep : List Char) (hsep : ¬ sep.length = 0) :
    ∀ (fuel : ℕ) (s : List Char), s.length < fuel →
      spn_joinPieces sep (spn_splitFuel sep fuel s) = s := by
  intro fuel
  induction fuel with
  | zero =>
    intro s hs
    exact absurd hs (Nat.not_lt_zero s.length)
  | succ n ih =>
    intro s hs
    simp only [spn_splitFuel]
    cases hfs : findSub sep s with
    | none => rfl
    | some i =>
      rcases findSub_some sep s i hfs with ⟨hlen, hdrop⟩
      set rest := s.drop (i + sep.length) with hrest
      have hrestlen : rest.length < n := by
        rw [hrest, List.length_drop]
        omega
      have hjoin : spn_joinPieces sep (spn_splitFuel sep n rest) = rest :=
        ih rest hrestlen
      cases hsplit : spn_splitFuel sep n rest with
      | nil => exact absurd hsplit (spn_splitFuel_ne_nil sep n rest)
      | cons p ps =>
        rw [hsplit] at hjoin
        rw [spn_joinPieces_cons] at hjoin ⊢
        rw [hsplit]
        show s.take i ++ (sep ++ p ++ joinTail sep ps) = s
        calc s.take i ++ (sep ++ p ++ joinTail sep ps)
            = s.take i ++ (sep ++ (p ++ joinTail sep ps)) := by
              simp [List.append_assoc]
          _ = s.take i ++ (sep ++ rest) := by rw [hjoin]
          _ = s.take i ++ s.drop i := by rw [hdrop, hrest]
          _ = s := List.take_append_drop i s

/-- The split/join round trip for the piece list of `rtlb_split`. -/
theorem split_join_roundtrip (sep s : List Char) (hsep : ¬ sep.length = 0) :
    spn_joinPieces sep (spn_splitList sep s) = s :=
  splitFuel_join_roundtrip sep hsep (s.length + 1) s (Nat.lt_succ_self _)

/-- `rtlb_split` (`rtlb.c:782`): argument validation, empty-separator check,
then the piece-collecting loop. -/
def rtlb_split (ret0 : SpnValue) (argv : List SpnValue) : NativeResult :=
  match argv with
  | [a0, a1] =>
    match a0, a1 with
    | SpnValue.str hay, SpnValue.str needle =>
      if needle.length = 0 then
        nErr (-3) ret0 "cannot split on empty string"
      else
        nOk (SpnValue.arr ((spn_splitList needle hay).map SpnValue.str)) []
    | _, _ => nErr (-2) ret0 "arguments must be strings"
  | _ => nErr (-1) ret0 "exactly two arguments are required"

/-- The element check of `rtlb_join`: all elements must be strings. -/
def joinCheckStrings : List SpnValue → Option (List (List Char))
  | [] => some []
  | SpnValue.str p :: rest => (joinCheckStrings rest).map (fun ps => p :: ps)
  | _ => none

theorem joinCheckStrings_map_str (l : List (List Char)) :
    joinCheckStrings (l.map SpnValue.str) = some l := by
  induction l with
  | nil => rfl
  | cons p ps ih => simp [joinCheckStrings, ih]

/-- `rtlb_join` (`rtlb.c:1118`): argument validation, then concatenation of
the pieces with the delimiter between consecutive pieces. -/
def rtlb_join (ret0 : SpnValue) (argv : List SpnValue) : NativeResult :=
  match argv with
  | [a0, a1] =>
    match a0, a1 with
    | SpnValue.arr elems, SpnValue.str delim =>
      match joinCheckStrings elems with
      | none => nErr (-3) ret0 "array must contain strings only"
      | some pieces => nOk (SpnValue.str (spn_joinPieces delim pieces)) []
    | SpnValue.arr _, _ => nErr (-2) ret0 "second argument must be a string"
    | _, _ => nErr (-2) ret0 "first argument must be an array"
  | _ => nErr (-1) ret0 "exactly two arguments are required"

example :
    spn_splitList [','] [',', 'a', ','] = [[], ['a'], []] := rfl

/-! ## The sort functions (`rtlb.c` lines 981–1116)

`rtlb_sort` sorts the array in place; the embedding passes the array
contents explicitly and returns the new contents.  The user comparator is
embedded by its observable behavior: a function from the two arguments to
`none` (the `spn_ctx_callfunc` call itself failed) or `some r` (the value it
returned). -/

/-- `spn_array_get`: out-of-range reads yield nil. -/
def aget (a : List SpnValue) (i : ℕ) : SpnValue :=
  a.getD i SpnValue.nil

/-- `rtlb_aux_swap` (`rtlb.c:985`). -/
def rtlb_aux_swap (a : List SpnValue) (i j : ℕ) : List SpnValue :=
  (a.set i (aget a j)).set j (aget a i)

/-- The behavior of a user comparator function. -/
def CmpFn : Type := SpnValue → SpnValue → Option SpnValue

/-- The message of `rtlb.c:1041-1046`, with the two `%s` arguments of the
format string rendered. -/
def uncompMsg (t1 t2 : String) : String :=
  "attempt to sort uncomparable values of type " ++ t1 ++ " and " ++ t2

/-- The message of `rtlb.c:1028`. -/
def cmpBoolMsg : String := "comparator function must return a Boolean"

/-- One comparison step of `rtlb_aux_partition` (`rtlb.c:1015-1053`): with a
comparator, call it and insist on a Boolean result; without one, insist on
comparability and use the built-in ordering.  An `Except.error none` is a
failed comparator call (the callee set the message); `Except.error (some m)`
records the message this code passes to `spn_ctx_runtime_error`. -/
def partCompare (comp : Option CmpFn) (x pivot : SpnValue) :
    Except (Option String) Bool :=
  match comp with
  | some f =>
    match f x pivot with
    | none => Except.error none
    | some (SpnValue.bool b) => Except.ok b
    | some _ => Except.error (some cmpBoolMsg)
  | none =>
    if spn_values_comparable x pivot then
      Except.ok (decide (spn_value_compare x pivot < 0))
    else
      Except.error
        (some (uncompMsg (spn_type_name x) (spn_type_name pivot)))

/-- The `for (i = left; i < right; i++)` loop of `rtlb_aux_partition`
(`rtlb.c:1009-1058`), with `k` the number of remaining iterations
(`right - i`). -/
def partitionLoop (comp : Option CmpFn) (pivot : SpnValue) :
    ℕ → List SpnValue → ℕ → ℕ → Except (Option String) (List SpnValue × ℕ)
  | 0, a, _, store => Except.ok (a, store)
  | k + 1, a, i, store =>
    match partCompare comp (aget a i) pivot with
    | Except.error e => Except.error e
    | Except.ok lessthan =>
      if lessthan then
        partitionLoop comp pivot k (rtlb_aux_swap a i store) (i + 1) (store + 1)
      else
        partitionLoop comp pivot k a (i + 1) store

/-- `rtlb_aux_partition` (`rtlb.c:997`): pick the middle element as pivot,
move it to `right`, run the comparison loop, put the pivot back at the store
index.  Returns the new contents and the store index, or the error. -/
def rtlb_aux_partition (a : List SpnValue) (left right : ℕ)
    (comp : Option CmpFn) : Except (Option String) (List SpnValue × ℕ) :=
  let pivot_idx := left + (right - left) / 2
  let pivot := aget a pivot_idx
  let a1 := rtlb_aux_swap a pivot_idx right
  match partitionLoop comp pivot (right - left) a1 left left with
  | Except.error e => Except.error e
  | Except.ok (a2, store) => Except.ok (rtlb_aux_swap a2 store right, store)

/-- `rtlb_aux_qsort` (`rtlb.c:1064`), with a fuel bounding the recursion
depth (`none` = fuel exhausted; the C recursion is at most one level per
element, so `length + 2` fuel always suffices).  The C indices are `int`s;
since `left` never goes below 0 and the only negative index that can arise
is `right = -1` (on which the `left >= right` exit fires exactly as it does
for `right = 0` with `left = 0`), the truncated subtraction of `ℕ` produces
the same control flow. -/
def rtlb_aux_qsort (comp : Option CmpFn) :
    ℕ → List SpnValue → ℕ → ℕ →
      Option (Except (Option String) (List SpnValue))
  | 0, _, _, _ => none
  | fuel + 1, a, left, right =>
    if left ≥ right then some (Except.ok a)
    else
      match rtlb_aux_partition a left right comp with
      | Except.error e => some (Except.error e)
      | Except.ok (a1, pivot) =>
        match rtlb_aux_qsort comp fuel a1 left (pivot - 1) with
        | none => none
        | some (Except.error e) => some (Except.error e)
        | some (Except.ok a2) => rtlb_aux_qsort comp fuel a2 (pivot + 1) right

/-- The sorting core of `rtlb_sort` (`rtlb.c:1115`): quicksort the whole
array.  `some (Except.ok a1)` is a zero (success) return with new contents
`a1`; `some (Except.error e)` is the `-1` error return of the C function. -/
def rtlb_sort_core (a : List SpnValue) (comp : Option CmpFn) :
    Option (Except (Option String) (List SpnValue)) :=
  rtlb_aux_qsort comp (a.length + 2) a 0 (a.length - 1)

/-- The integer status `rtlb_sort` reports for a quicksort outcome. -/
def sortStatusOf : Option (Except (Option String) (List SpnValue)) → ℤ
  | some (Except.ok _) => 0
  | _ => -1

example :
    rtlb_sort_core [SpnValue.int 3, SpnValue.int 1, SpnValue.int 2] none =
      some (Except.ok [SpnValue.int 1, SpnValue.int 2, SpnValue.int 3]) := rfl

example :
    rtlb_sort_core [SpnValue.int 3, SpnValue.str ['a']] none =
      some (Except.error (some (uncompMsg "string" "int"))) := rfl

example :
    rtlb_split SpnValue.nil [SpnValue.str ['a'], SpnValue.str []] =
      nErr (-3) SpnValue.nil "cannot split on empty string" := rfl

theorem aget_set_ne (a : List SpnValue) (v : SpnValue) :
    ∀ (i j : ℕ), i ≠ j → aget (a.set i v) j = aget a j := by
  induction a with
  | nil => intro i j _; rfl
  | cons x xs ih =>
    intro i j hij
    cases i with
    | zero =>
      cases j with
      | zero => exact absurd rfl hij
      | succ j => rfl
    | succ i =>
      cases j with
      | zero => rfl
      | succ j =>
        have : i ≠ j := fun h => hij (congrArg Nat.succ h)
        simpa [aget, List.set, List.getD] using ih i j this

theorem aget_set_self (a : List SpnValue) (v : SpnValue) :
    ∀ (j : ℕ), j < a.length → aget (a.set j v) j = v := by
  induction a with
  | nil => intro j hj; exact absurd hj (Nat.not_lt_zero j)
  | cons x xs ih =>
    intro j hj
    cases j with
    | zero => rfl
    | succ j =>
      have hj2 : j < xs.length := Nat.lt_of_succ_lt_succ hj
      simpa [aget, List.set, List.getD] using ih j hj2

theorem length_swap (a : List SpnValue) (i j : ℕ) :
    (rtlb_aux_swap a i j).length = a.length := by
  simp [rtlb_aux_swap]

theorem aget_swap_other (a : List SpnValue) (i j k : ℕ)
    (hki : k ≠ i) (hkj : k ≠ j) :
    aget (rtlb_aux_swap a i j) k = aget a k := by
  unfold rtlb_aux_swap
  rw [aget_set_ne _ _ j k (Ne.symm hkj), aget_set_ne _ _ i k (Ne.symm hki)]

theorem aget_swap_fst (a : List SpnValue) (i j : ℕ)
    (hij : i ≠ j) (hi : i < a.length) :
    aget (rtlb_aux_swap a i j) i = aget a j := by
  unfold rtlb_aux_swap
  rw [aget_set_ne _ _ j i (Ne.symm hij), aget_set_self _ _ i hi]

theorem comparable_self_of_class (x : SpnValue) (c : CompClass)
    (h : compClass x = some c) : spn_values_comparable x x = true := by
  simp [spn_values_comparable, h]

theorem uncomp_of_class_none (p : SpnValue) (h : compClass p = none) :
    ∀ z, spn_values_comparable z p = false := by
  intro z
  unfold spn_values_comparable
  rw [h]
  cases compClass z <;> rfl

theorem comparable_trans_pivot (x y p : SpnValue)
    (hx : spn_values_comparable x p = true)
    (hy : spn_values_comparable y p = true) :
    spn_values_comparable x y = true := by
  unfold spn_values_comparable at hx hy ⊢
  cases hcx : compClass x <;> rw [hcx] at hx
  · cases compClass p <;> simp at hx
  · cases hcy : compClass y <;> rw [hcy] at hy
    · cases compClass p <;> simp at hy
    · cases hcp : compClass p <;> rw [hcp] at hx hy
      · simp at hx
      · simp at hx hy
        subst hx
        subst hy
        simp

/-- If, among the positions the partition loop has yet to visit, some
element is uncomparable with the pivot, the loop aborts with the typed
message built from an actually-failing pair. -/
theorem partitionLoop_uncomp (pivot : SpnValue) :
    ∀ (k : ℕ) (a : List SpnValue) (i store : ℕ), store ≤ i →
      (∃ j, i ≤ j ∧ j < i + k ∧ j < a.length ∧
        spn_values_comparable (aget a j) pivot = false) →
      ∃ z, spn_values_comparable z pivot = false ∧
        partitionLoop none pivot k a i store =
          Except.error
            (some (uncompMsg (spn_type_name z) (spn_type_name pivot))) := by
  intro k
  induction k with
  | zero =>
    intro a i store _ hex
    rcases hex with ⟨j, h1, h2, _, _⟩
    omega
  | succ k ih =>
    intro a i store hsi hex
    rcases hex with ⟨j, hij, hjk, hjl, hjunc⟩
    by_cases hc : spn_values_comparable (aget a i) pivot = true
    · have hji : j ≠ i := by
        intro h
        rw [h] at hjunc
        rw [hc] at hjunc
        cases hjunc
      have hij1 : i + 1 ≤ j := by omega
      simp only [partitionLoop, partCompare, hc, if_pos]
      cases hlt : decide (spn_value_compare (aget a i) pivot < 0) with
      | true =>
        simp only [if_pos]
        apply ih (rtlb_aux_swap a i store) (i + 1) (store + 1) (by omega)
        refine ⟨j, hij1, by omega, ?_, ?_⟩
        · rw [length_swap]; exact hjl
        · rw [aget_swap_other a i store j (by omega) (by omega)]
          exact hjunc
      | false =>
        simp only [Bool.false_eq_true, if_false]
        apply ih a (i + 1) store (by omega)
        exact ⟨j, hij1, by omega, hjl, hjunc⟩
    · have hc2 : spn_values_comparable (aget a i) pivot = false :=
        Bool.not_eq_true _ ▸ (Bool.eq_false_iff.mpr hc)
      refine ⟨aget a i, hc2, ?_⟩
      simp [partitionLoop, partCompare, hc2]

/-- With no comparator, an array of length at least 2 holding two mutually
uncomparable elements makes the very first partition abort with the typed
message of an actually-failing pair. -/
theorem partition_uncomp (a : List SpnValue) (h2 : 2 ≤ a.length)
    (p q : ℕ) (hp : p < a.length) (hq : q < a.length) (hpq : p ≠ q)
    (hunc : spn_values_comparable (aget a p) (aget a q) = false) :
    ∃ z, spn_values_comparable z (aget a ((a.length - 1) / 2)) = false ∧
      rtlb_aux_partition a 0 (a.length - 1) none =
        Except.error (some (uncompMsg (spn_type_name z)
          (spn_type_name (aget a ((a.length - 1) / 2))))) := by
  set n := a.length with hn
  set r := n - 1 with hr
  set pi_ := r / 2 with hpi
  set pivot := aget a pi_ with hpivot
  have hr1 : 1 ≤ r := by omega
  have hpir : pi_ < r := Nat.div_lt_self (by omega) (by omega)
  have hmain :
      ∃ j, 0 ≤ j ∧ j < 0 + (r - 0) ∧ j < (rtlb_aux_swap a pi_ r).length ∧
        spn_values_comparable (aget (rtlb_aux_swap a pi_ r) j) pivot = false := by
    by_cases c1 : spn_values_comparable (aget a p) pivot = true
    · by_cases c2 : spn_values_comparable (aget a q) pivot = true
      · exact absurd (comparable_trans_pivot _ _ _ c1 c2)
          (by rw [hunc]; simp)
      · have c2f : spn_values_comparable (aget a q) pivot = false :=
          Bool.eq_false_iff.mpr c2
        by_cases hqpi : q = pi_
        · have hpnone : compClass pivot = none := by
            cases hcp : compClass pivot with
            | none => rfl
            | some c =>
              rw [hqpi, ← hpivot] at c2f
              rw [comparable_self_of_class pivot c hcp] at c2f
              cases c2f
          refine ⟨0, Nat.le_refl 0, by omega, by rw [length_swap]; omega, ?_⟩
          exact uncomp_of_class_none pivot hpnone _
        · by_cases hqr : q = r
          · refine ⟨pi_, Nat.zero_le _, by omega, by rw [length_swap]; omega, ?_⟩
            rw [aget_swap_fst a pi_ r (by omega) (by omega), ← hqr]
            exact c2f
          · refine ⟨q, Nat.zero_le _, by omega, by rw [length_swap]; omega, ?_⟩
            rw [aget_swap_other a pi_ r q hqpi hqr]
            exact c2f
    · have c1f : spn_values_comparable (aget a p) pivot = false :=
        Bool.eq_false_iff.mpr c1
      by_cases hppi : p = pi_
      · have hpnone : compClass pivot = none := by
          cases hcp : compClass pivot with
          | none => rfl
          | some c =>
            rw [hppi, ← hpivot] at c1f
            rw [comparable_self_of_class pivot c hcp] at c1f
            cases c1f
        refine ⟨0, Nat.le_refl 0, by omega, by rw [length_swap]; omega, ?_⟩
        exact uncomp_of_class_none pivot hpnone _
      · by_cases hpr : p = r
        · refine ⟨pi_, Nat.zero_le _, by omega, by rw [length_swap]; omega, ?_⟩
          rw [aget_swap_fst a pi_ r (by omega) (by omega), ← hpr]
          exact c1f
        · refine ⟨p, Nat.zero_le _, by omega, by rw [length_swap]; omega, ?_⟩
          rw [aget_swap_other a pi_ r p hppi hpr]
          exact c1f
  rcases partitionLoop_uncomp pivot (r - 0) (rtlb_aux_swap a pi_ r) 0 0
      (Nat.le_refl 0) hmain with ⟨z, hz, hloop⟩
  refine ⟨z, hz, ?_⟩
  unfold rtlb_aux_partition
  simp only [Nat.zero_add, Nat.sub_zero] at hloop ⊢
  rw [hloop]

/-- `rtlb_sort_core` on an uncomparable pair: the first quicksort level
already reports the partition error. -/
theorem sort_core_uncomp (a : List SpnValue) (h2 : 2 ≤ a.length)
    (p q : ℕ) (hp : p < a.length) (hq : q < a.length) (hpq : p ≠ q)
    (hunc : spn_values_comparable (aget a p) (aget a q) = false) :
    ∃ z w, spn_values_comparable z w = false ∧
      rtlb_sort_core a none =
        some (Except.error
          (some (uncompMsg (spn_type_name z) (spn_type_name w)))) := by
  rcases partition_uncomp a h2 p q hp hq hpq hunc with ⟨z, hz, hpart⟩
  refine ⟨z, aget a ((a.length - 1) / 2), hz, ?_⟩
  unfold rtlb_sort_core
  show rtlb_aux_qsort none (a.length + 1 + 1) a 0 (a.length - 1) = _
  unfold rtlb_aux_qsort
  rw [if_neg (by omega), hpart]

theorem nonBool_comparator_partCompare (f : CmpFn) (x pivot : SpnValue)
    (r : SpnValue) (hf : f x pivot = some r) (hb : r.isbool = false) :
    partCompare (some f) x pivot = Except.error (some cmpBoolMsg) := by
  simp only [partCompare]
  rw [hf]
  cases r with
  | bool b => cases hb
  | nil => rfl
  | int _ => rfl
  | float _ => rfl
  | str _ => rfl
  | arr _ => rfl
  | func _ => rfl
  | weakuserinfo _ => rfl

/-- A comparator that returns a non-Boolean on the comparison the loop
performs first makes `rtlb_sort_core` abort with the comparator message. -/
theorem sort_core_nonBool (a : List SpnValue) (h2 : 2 ≤ a.length)
    (f : CmpFn)
    (hf : ∀ x y, ∃ r, f x y = some r ∧ r.isbool = false) :
    rtlb_sort_core a (some f) =
      some (Except.error (some cmpBoolMsg)) := by
  unfold rtlb_sort_core
  show rtlb_aux_qsort (some f) (a.length + 1 + 1) a 0 (a.length - 1) = _
  unfold rtlb_aux_qsort
  rw [if_neg (by omega)]
  have hpart :
      rtlb_aux_partition a 0 (a.length - 1) (some f) =
        Except.error (some cmpBoolMsg) := by
    unfold rtlb_aux_partition
    set pidx := 0 + (a.length - 1 - 0) / 2 with hpidx
    set pivot := aget a pidx with hpivotdef
    set a1 := rtlb_aux_swap a pidx (a.length - 1) with ha1def
    have hk : a.length - 1 - 0 = (a.length - 2) + 1 := by omega
    rw [hk]
    rcases hf (aget a1 0) pivot with ⟨r, hr, hb⟩
    simp only [partitionLoop,
      nonBool_comparator_partCompare f (aget a1 0) pivot r hr hb]
  rw [hpart]

/-! ## `rtlb_range` (`rtlb.c` lines 2902–2987) -/

/-- The value of the loop variable `x` of the three-argument range before
iteration `i` (`rtlb.c:2971`): `x` starts as `begin` and is recomputed as
`begin + step * i` after each iteration. -/
def rangeTerm (a step : SpnFloat) : ℕ → SpnFloat
  | 0 => a
  | i + 1 => SpnFloat.add a (SpnFloat.mul step (SpnFloat.ofNat (i + 1)))

/-- The `for (i = 0, x = begin; x <= end; x = begin + step * ++i)` loop of
the three-argument range, with fuel: `some l` means the loop exited having
pushed the terms `l`; `none` means the fuel ran out with the loop still
running. -/
def range3Loop (a b step : SpnFloat) : ℕ → ℕ → Option (List SpnFloat)
  | 0, _ => none
  | fuel + 1, i =>
    if SpnFloat.fle (rangeTerm a step i) b then
      (range3Loop a b step fuel (i + 1)).map
        (fun l => rangeTerm a step i :: l)
    else
      some []

/-- Termination of the three-argument construction loop: some iteration
fails the `x <= end` test. -/
def range3Terminates (a b step : SpnFloat) : Prop :=
  ∃ i, SpnFloat.fle (rangeTerm a step i) b = false

/-- `FLOATVAL` (`rtlb.c:2958`): an int argument as a double, or the float
argument itself (callers have established `isnum`). -/
def floatval : SpnValue → SpnFloat
  | SpnValue.int i => SpnFloat.ofInt i
  | SpnValue.float f => f
  | _ => SpnFloat.nan

/-- The integer list `[b, b+1, ..., e-1]` built by the one- and two-argument
ranges (`rtlb.c:2930` and `rtlb.c:2950`). -/
def intRangeList (b e : ℤ) : List SpnValue :=
  (List.range (e - b).toNat).map (fun k : ℕ => SpnValue.int (b + (k : ℤ)))

/-- `rtlb_range` (`rtlb.c:2902`).  The fuel bounds the three-argument loop
only; `none` means that loop was still running when the fuel ran out (the
integer paths and all error paths never consume fuel). -/
def rtlb_range (fuel : ℕ) (ret0 : SpnValue) (argv : List SpnValue) :
    Option NativeResult :=
  if argv.length < 1 ∨ 3 < argv.length then
    some (nErr (-1) ret0 "expecting 1, 2 or 3 arguments")
  else if ¬ (argv.all SpnValue.isnum = true) then
    some (nErr (-2) ret0 "arguments must be numbers")
  else
    match argv with
    | [a0] =>
      match a0 with
      | SpnValue.int n => some (nOk (SpnValue.arr (intRangeList 0 n)) [])
      | _ => some (nErr (-3) ret0 "argument must be an integer")
    | [a0, a1] =>
      match a0, a1 with
      | SpnValue.int b, SpnValue.int e =>
        some (nOk (SpnValue.arr (intRangeList b e)) [])
      | _, _ => some (nErr (-3) ret0 "arguments must be integers")
    | [a0, a1, a2] =>
      match range3Loop (floatval a0) (floatval a1) (floatval a2) fuel 0 with
      | none => none
      | some terms =>
        some (nOk (SpnValue.arr (terms.map SpnValue.float)) [])
    | _ => some (nErr (-1) ret0 "expecting 1, 2 or 3 arguments")

example :
    rtlb_range 10 SpnValue.nil [SpnValue.int 3] =
      some (nOk (SpnValue.arr
        [SpnValue.int 0, SpnValue.int 1, SpnValue.int 2]) []) := rfl

example :
    rtlb_range 10 SpnValue.nil
      [SpnValue.float (SpnFloat.num ⟨0, 0⟩), SpnValue.float (SpnFloat.num ⟨1, 0⟩),
        SpnValue.float (SpnFloat.num ⟨1, 3⟩)] =
      some (nOk (SpnValue.arr
        [SpnValue.float (SpnFloat.num ⟨0, 0⟩), SpnValue.float (SpnFloat.num ⟨1, 3⟩),
          SpnValue.float (SpnFloat.num ⟨2, 3⟩), SpnValue.float (SpnFloat.num ⟨3, 3⟩),
          SpnValue.float (SpnFloat.num ⟨4, 3⟩)]) []) := rfl

/-- The value of the `i`-th loop term for non-NaN begin and step. -/
theorem rangeTerm_num (fa fs : Frac) :
    ∀ i : ℕ, ∃ x : Frac,
      rangeTerm (SpnFloat.num fa) (SpnFloat.num fs) i = SpnFloat.num x ∧
        x.toRat = fa.toRat + fs.toRat * i := by
  intro i
  cases i with
  | zero =>
    refine ⟨fa, rfl, ?_⟩
    simp
  | succ m =>
    refine ⟨fa.add (fs.mul (Frac.ofInt (Int.ofNat (m + 1)))), rfl, ?_⟩
    rw [Frac.toRat_add, Frac.toRat_mul, Frac.toRat_ofInt]
    push_cast [Int.ofNat_eq_natCast]
    ring

/-- If every iteration passes the `x <= end` test, the loop never exits,
whatever the fuel. -/
theorem range3Loop_none_of_all (a b step : SpnFloat)
    (h : ∀ i, SpnFloat.fle (rangeTerm a step i) b = true) :
    ∀ (fuel i0 : ℕ), range3Loop a b step fuel i0 = none := by
  intro fuel
  induction fuel with
  | zero => intro i0; rfl
  | succ n ih =>
    intro i0
    simp only [range3Loop, h i0, if_pos, ih (i0 + 1), Option.map_none']

/-- Conversely, a failing iteration within the fuel makes the loop exit. -/
theorem range3Loop_some_of_lt (a b step : SpnFloat) (K : ℕ)
    (hK : SpnFloat.fle (rangeTerm a step K) b = false)
    (hbelow : ∀ i, i < K → SpnFloat.fle (rangeTerm a step i) b = true) :
    ∀ (fuel i0 : ℕ), i0 ≤ K → K - i0 < fuel →
      range3Loop a b step fuel i0 =
        some ((List.range (K - i0)).map (fun j => rangeTerm a step (i0 + j))) := by
  intro fuel
  induction fuel with
  | zero => intro i0 _ h; exact absurd h (Nat.not_lt_zero _)
  | succ n ih =>
    intro i0 hi0 hfuel
    by_cases hi : i0 = K
    · subst hi
      simp [range3Loop, hK]
    · have hi0K : i0 < K := Nat.lt_of_le_of_ne hi0 hi
      have h1 : SpnFloat.fle (rangeTerm a step i0) b = true := hbelow i0 hi0K
      have h2 : K - (i0 + 1) < n := by omega
      simp only [range3Loop, h1, if_pos, ih (i0 + 1) hi0K h2, Option.map_some']
      have hrange : K - i0 = (K - (i0 + 1)) + 1 := by omega
      rw [hrange, List.range_succ_eq_map]
      simp only [List.map_cons, List.map_map, Nat.add_zero, Option.some.injEq,
        List.cons.injEq]
      refine ⟨trivial, ?_⟩
      apply List.map_congr_left
      intro j _
      simp only [Function.comp_apply]
      have : i0 + 1 + j = i0 + (j + 1) := by omega
      rw [this]

theorem fle_nan_left (b : SpnFloat) :
    SpnFloat.fle SpnFloat.nan b = false := by
  cases b <;> rfl

theorem fle_nan_right (a : SpnFloat) :
    SpnFloat.fle a SpnFloat.nan = false := by
  cases a <;> rfl

theorem fle_true_num (a b : SpnFloat) (h : SpnFloat.fle a b = true) :
    ∃ fa fb, a = SpnFloat.num fa ∧ b = SpnFloat.num fb ∧
      fa.toRat ≤ fb.toRat := by
  cases a with
  | nan => rw [fle_nan_left] at h; cases h
  | num fa =>
    cases b with
    | nan => rw [fle_nan_right] at h; cases h
    | num fb => exact ⟨fa, fb, rfl, rfl, (Frac.ble_iff fa fb).mp h⟩

theorem fgt_true_num (s z : SpnFloat) (h : SpnFloat.fgt s z = true) :
    ∃ fs fz, s = SpnFloat.num fs ∧ z = SpnFloat.num fz ∧
      fz.toRat < fs.toRat := by
  cases s with
  | nan => cases z <;> cases h
  | num fs =>
    cases z with
    | nan => cases h
    | num fz => exact ⟨fs, fz, rfl, rfl, (Frac.blt_iff fz fs).mp h⟩

/-- The zero double. -/
def fzero : SpnFloat := SpnFloat.num (Frac.ofInt 0)

/-- A non-positive step and `begin <= end` keep every iteration inside the
`x <= end` test: the loop never exits. -/
theorem range3_no_exit (fa fb fs : Frac)
    (hab : fa.toRat ≤ fb.toRat) (hs : fs.toRat ≤ 0) :
    ∀ i, SpnFloat.fle
      (rangeTerm (SpnFloat.num fa) (SpnFloat.num fs) i)
      (SpnFloat.num fb) = true := by
  intro i
  rcases rangeTerm_num fa fs i with ⟨x, hx, hxval⟩
  rw [hx]
  show Frac.ble x fb = true
  rw [Frac.ble_iff, hxval]
  have hcast : (0 : ℚ) ≤ (i : ℚ) := Nat.cast_nonneg i
  nlinarith

/-- Characterization of the three-argument loop's termination: it exits
exactly when the step is positive, or the initial `begin <= end` test fails
(including any NaN bound), or the step is NaN. -/
theorem range3Terminates_iff (a b step : SpnFloat) :
    range3Terminates a b step ↔
      (SpnFloat.fgt step fzero = true ∨ SpnFloat.fle a b = false ∨
        step = SpnFloat.nan) := by
  constructor
  · intro hterm
    by_contra hcon
    push_neg at hcon
    rcases hcon with ⟨hgt, hab, hnan⟩
    have hab2 : SpnFloat.fle a b = true := by
      cases hfe : SpnFloat.fle a b with
      | false => exact absurd hfe hab
      | true => rfl
    rcases fle_true_num a b hab2 with ⟨fa, fb, ha, hb, habq⟩
    cases hstep : step with
    | nan => exact hnan hstep
    | num fs =>
      have hs : fs.toRat ≤ 0 := by
        by_contra hpos
        push_neg at hpos
        apply hgt
        rw [hstep]
        show Frac.blt (Frac.ofInt 0) fs = true
        rw [Frac.blt_iff, Frac.toRat_ofInt]
        exact_mod_cast hpos
      rcases hterm with ⟨i, hi⟩
      rw [ha, hb, hstep] at hi
      rw [range3_no_exit fa fb fs habq hs i] at hi
      cases hi
  · intro hcase
    rcases hcase with hgt | hab | hnan
    · rcases fgt_true_num step fzero hgt with ⟨fs, fz, hstep, hz, hlt⟩
      have hz0 : fz.toRat = 0 := by
        have : fzero = SpnFloat.num fz := hz
        have h2 : Frac.ofInt 0 = fz := by
          injection this
        rw [← h2, Frac.toRat_ofInt]
        norm_num
      rw [hz0] at hlt
      cases hfe : SpnFloat.fle a b with
      | false => exact ⟨0, hfe⟩
      | true =>
        rcases fle_true_num a b hfe with ⟨fa, fb, ha, hb, habq⟩
        rcases exists_nat_gt ((fb.toRat - fa.toRat) / fs.toRat) with ⟨nbig, hnbig⟩
        refine ⟨nbig, ?_⟩
        rw [ha, hb, hstep]
        rcases rangeTerm_num fa fs nbig with ⟨x, hx, hxval⟩
        rw [hx]
        show Frac.ble x fb = false
        cases hble : Frac.ble x fb with
        | false => rfl
        | true =>
          have hle : x.toRat ≤ fb.toRat := (Frac.ble_iff x fb).mp hble
          rw [hxval] at hle
          rw [div_lt_iff hlt] at hnbig
          nlinarith
    · exact ⟨0, by
        show SpnFloat.fle a b = false
        exact hab⟩
    · cases hfe : SpnFloat.fle a b with
      | false => exact ⟨0, hfe⟩
      | true =>
        rcases fle_true_num a b hfe with ⟨fa, fb, ha, hb, _⟩
        refine ⟨1, ?_⟩
        rw [ha, hb, hnan]
        rfl

/-! ## `rtlb_concat` (`rtlb.c` lines 2039–2072) -/

/-- The message of `rtlb.c:2056` with the `%i`/`%s` arguments rendered. -/
def concatErrMsg (argidx : ℕ) (tn : String) : String :=
  "arguments must be arrays (arg " ++ toString argidx ++ " was " ++ tn ++ ")"

/-- The argument loop of `rtlb_concat`: `acc` is the contents of the array
already stored in the result slot, `idx` the 1-based index of the next
argument.  A non-array argument is an error return with the result slot
STILL HOLDING the partially built array: the C code releases the array but
does not overwrite the slot (`rtlb.c:2057`). -/
def concatGo (acc : List SpnValue) (idx : ℕ) :
    List SpnValue → NativeResult
  | [] => nOk (SpnValue.arr acc) []
  | SpnValue.arr xs :: rest => concatGo (acc ++ xs) (idx + 1) rest
  | v :: _ =>
    ⟨-1, SpnValue.arr acc, some (concatErrMsg idx (spn_type_name v)), []⟩

/-- `rtlb_concat` (`rtlb.c:2039`): writes a fresh array into the result slot
BEFORE validating its arguments, then pushes the elements of every argument
array. -/
def rtlb_concat (ret0 : SpnValue) (argv : List SpnValue) : NativeResult :=
  concatGo [] 1 argv

example :
    rtlb_concat SpnValue.nil
      [SpnValue.arr [SpnValue.int 1], SpnValue.str ['x']] =
    ⟨-1, SpnValue.arr [SpnValue.int 1],
      some (concatErrMsg 2 "string"), []⟩ := rfl

/-! ## The format engine and `rtlb_printf` (`rtlb.c` lines 152–184)

The format engine `spn_string_format_obj` lives in `str.c`, which is not
among the sources; it is modelled from the spec (§4.6). -/

/-- The decimal rendering of an integer. -/
def intChars (n : ℤ) : List Char := (toString n).toList

/-- Modelled from the spec: `spn_string_format_obj` of the absent `str.c` —
"Inputs: a format string and an argument list.  Output: a new string, or an
error message" (§4.6).  The model covers the `%s`, `%i`/`%d`, `%c`, `%B` and
`%%` conversions with no flags, width or precision; the float and unsigned
conversions and the width/precision modifiers of §4.6 are omitted (no claim
exercises them), and an unknown or unsupported specifier, a type mismatch,
or a missing argument is an error, as §4.6 requires. -/
def spn_string_format : List Char → List SpnValue → Except String (List Char)
  | [], _ => Except.ok []
  | '%' :: c :: rest, args =>
    if c = '%' then
      (spn_string_format rest args).map (fun t => '%' :: t)
    else if c = 's' then
      match args with
      | SpnValue.str s :: args2 =>
        (spn_string_format rest args2).map (fun t => s ++ t)
      | _ :: _ => Except.error "expected a string argument"
      | [] => Except.error "too few arguments"
    else if c = 'i' ∨ c = 'd' then
      match args with
      | SpnValue.int n :: args2 =>
        (spn_string_format rest args2).map (fun t => intChars n ++ t)
      | _ :: _ => Except.error "expected an integer argument"
      | [] => Except.error "too few arguments"
    else if c = 'c' then
      match args with
      | SpnValue.int n :: args2 =>
        (spn_string_format rest args2).map (fun t => Char.ofNat n.toNat :: t)
      | _ :: _ => Except.error "expected an integer argument"
      | [] => Except.error "too few arguments"
    else if c = 'B' then
      match args with
      | SpnValue.bool b :: args2 =>
        (spn_string_format rest args2).map
          (fun t => (if b then "true".toList else "false".toList) ++ t)
      | _ :: _ => Except.error "expected a Boolean argument"
      | [] => Except.error "too few arguments"
    else
      Except.error "unsupported conversion specifier"
  | ['%'], _ => Except.error "incomplete conversion specifier"
  | ch :: rest, args =>
    (spn_string_format rest args).map (fun t => ch :: t)

/-- `rtlb_printf` (`rtlb.c:152`): expand the format string over the
remaining arguments; on success write the expansion to stdout and return its
length as an Int; on a format error report it and leave the result slot
alone. -/
def rtlb_printf (ret0 : SpnValue) (argv : List SpnValue) : NativeResult :=
  match argv with
  | [] => nErr (-1) ret0 "at least one argument is required"
  | a0 :: rest =>
    match a0 with
    | SpnValue.str fmt =>
      match spn_string_format fmt rest with
      | Except.ok res => ⟨0, SpnValue.int res.length, none, res⟩
      | Except.error m => nErr (-3) ret0 ("error in format string: " ++ m)
    | _ => nErr (-2) ret0 "first argument must be a format string"

example :
    rtlb_printf SpnValue.nil
      [SpnValue.str "%s=%d".toList, SpnValue.str ['x'], SpnValue.int 7] =
    ⟨0, SpnValue.int 3, none, "x=7".toList⟩ := rfl

/-! ## `rtlb_readfile` (`rtlb.c` lines 525–575) -/

/-- What the file system does for one file: `fopen` fails, `fread` fails, or
the whole contents are read. -/
inductive ReadFileOutcome where
  | cantOpen : String → ReadFileOutcome
  | cantRead : String → ReadFileOutcome
  | content : List Char → ReadFileOutcome

/-- The file system seen by `rtlb_readfile`, abstracted: per file name, the
outcome (the `String` payloads of the failures are the `strerror(errno)`
texts). -/
def FsOracle : Type := String → ReadFileOutcome

/-- `rtlb_readfile` (`rtlb.c:525`): validate the argument, open and read the
file, and return its entire contents as a string; on any failure leave the
result slot alone, set the message and return a negative status. -/
def rtlb_readfile (fs : FsOracle) (ret0 : SpnValue) (argv : List SpnValue) :
    NativeResult :=
  match argv with
  | [a0] =>
    match a0 with
    | SpnValue.str fname =>
      match fs (String.mk fname) with
      | ReadFileOutcome.cantOpen e =>
        nErr (-3) ret0 ("can't open file `" ++ String.mk fname ++ "': " ++ e)
      | ReadFileOutcome.cantRead e =>
        nErr (-4) ret0 ("can't read file `" ++ String.mk fname ++ "': " ++ e)
      | ReadFileOutcome.content data => nOk (SpnValue.str data) []
    | _ => nErr (-2) ret0 "argument must be a string (filename)"
  | _ => nErr (-1) ret0 "exactly one argument is required"

/-! ## The context facade (`ctx.c` / `ctx.h`) -/

/-- `enum spn_error_type` (`ctx.h:21`). -/
inductive SpnErrType where
  | SPN_ERROR_OK : SpnErrType
  | SPN_ERROR_SYNTAX : SpnErrType
  | SPN_ERROR_SEMANTIC : SpnErrType
  | SPN_ERROR_RUNTIME : SpnErrType
  | SPN_ERROR_GENERIC : SpnErrType
deriving DecidableEq, Repr

/-- The external components the context drives: parser, compiler, virtual
machine and the file-reading helpers live outside the three source files, so
each is abstracted as an oracle function.  `Except.error m` means the
component failed and now holds the message `m`; ASTs and bytecode programs
are opaque identifiers.  `parseExpr` backs the absent
`spn_ctx_compile_expr`; `vmExec`/`vmCall` returning `Except.ok` deliver the
result value the VM writes into the caller's slot (per spec §4.7/§7 there is
no partial result on error). -/
structure CtxEnv where
  parse : String → Except String ℕ
  compile : ℕ → Except String ℕ
  parseExpr : String → Except String ℕ
  vmExec : ℕ → Except String SpnValue
  vmCall : SpnValue → List SpnValue → Except String SpnValue
  readTextFile : String → Option String
  readBinaryFile : String → Option ℕ

/-- `struct SpnContext` (`ctx.c:15`): the error discriminator, the message
each owned component currently holds (`ctx->parser->errmsg`,
`spn_compiler_errmsg(ctx->cmp)`, `spn_vm_geterrmsg(ctx->vm)`), the context's
own generic message (`ctx->errmsg`), and the bytecode chain. -/
structure SpnContext where
  errtype : SpnErrType
  parserErrmsg : Option String
  compilerErrmsg : Option String
  vmErrmsg : Option String
  ctxErrmsg : Option String
  bclist : List ℕ
deriving DecidableEq, Repr

/-- `spn_ctx_new` (`ctx.c:30`), observable state. -/
def spn_ctx_new : SpnContext :=
  ⟨SpnErrType.SPN_ERROR_OK, none, none, none, none, []⟩

/-- `spn_ctx_geterrtype` (`ctx.c:58`). -/
def spn_ctx_geterrtype (c : SpnContext) : SpnErrType := c.errtype

/-- `spn_ctx_geterrmsg` (`ctx.c:63`): null for `Ok`, otherwise the message
of the component owning the current category. -/
def spn_ctx_geterrmsg (c : SpnContext) : Option String :=
  match c.errtype with
  | SpnErrType.SPN_ERROR_OK => none
  | SpnErrType.SPN_ERROR_SYNTAX => c.parserErrmsg
  | SpnErrType.SPN_ERROR_SEMANTIC => c.compilerErrmsg
  | SpnErrType.SPN_ERROR_RUNTIME => c.vmErrmsg
  | SpnErrType.SPN_ERROR_GENERIC => c.ctxErrmsg

/-- `spn_ctx_loadstring` (`ctx.c:93`): reset the discriminator to Ok, parse
(failure: `SPN_ERROR_SYNTAX`), compile (failure: `SPN_ERROR_SEMANTIC`),
prepend the bytecode to the chain.  It returns the bytecode itself —
the C function returns the raw `spn_uword *` (`NULL` on failure); it has no
status/result-out-parameter pair (see `claim_C1`). -/
def spn_ctx_loadstring (env : CtxEnv) (c : SpnContext) (str : String) :
    Option ℕ × SpnContext :=
  let c0 := {c with errtype := SpnErrType.SPN_ERROR_OK}
  match env.parse str with
  | Except.error m =>
    (none, {c0 with errtype := SpnErrType.SPN_ERROR_SYNTAX,
                    parserErrmsg := some m})
  | Except.ok ast =>
    match env.compile ast with
    | Except.error m =>
      (none, {c0 with errtype := SpnErrType.SPN_ERROR_SEMANTIC,
                      compilerErrmsg := some m})
    | Except.ok bc => (some bc, {c0 with bclist := bc :: c0.bclist})

/-- `spn_ctx_loadsrcfile` (`ctx.c:122`): read the file (failure:
`SPN_ERROR_GENERIC` with the context-owned message), then delegate to
`spn_ctx_loadstring`. -/
def spn_ctx_loadsrcfile (env : CtxEnv) (c : SpnContext) (fname : String) :
    Option ℕ × SpnContext :=
  let c0 := {c with errtype := SpnErrType.SPN_ERROR_OK}
  match env.readTextFile fname with
  | none =>
    (none, {c0 with
      errtype := SpnErrType.SPN_ERROR_GENERIC,
      ctxErrmsg := some "Sparkling: I/O error: could not read source file"})
  | some src => spn_ctx_loadstring env c0 src

/-- `spn_ctx_loadobjfile` (`ctx.c:142`): read the raw bytecode (failure:
`SPN_ERROR_GENERIC`), prepend it to the chain without compiling. -/
def spn_ctx_loadobjfile (env : CtxEnv) (c : SpnContext) (fname : String) :
    Option ℕ × SpnContext :=
  let c0 := {c with errtype := SpnErrType.SPN_ERROR_OK}
  match env.readBinaryFile fname with
  | none =>
    (none, {c0 with
      errtype := SpnErrType.SPN_ERROR_GENERIC,
      ctxErrmsg := some "Sparkling: I/O error: could not read object file"})
  | some bc => (some bc, {c0 with bclist := bc :: c0.bclist})

/-- `spn_ctx_execbytecode` (`ctx.c:196`): reset the discriminator, run the
VM; a nonzero VM status (embedded as `-1`) sets `SPN_ERROR_RUNTIME` and
leaves the caller's result slot alone. -/
def spn_ctx_execbytecode (env : CtxEnv) (c : SpnContext) (bc : ℕ)
    (ret0 : SpnValue) : ℤ × SpnValue × SpnContext :=
  let c0 := {c with errtype := SpnErrType.SPN_ERROR_OK}
  match env.vmExec bc with
  | Except.ok v => (0, v, c0)
  | Except.error m =>
    (-1, ret0, {c0 with errtype := SpnErrType.SPN_ERROR_RUNTIME,
                        vmErrmsg := some m})

/-- `spn_ctx_execstring` (`ctx.c:165`): load, then execute; a load failure
returns `-1` with the slot untouched. -/
def spn_ctx_execstring (env : CtxEnv) (c : SpnContext) (str : String)
    (ret0 : SpnValue) : ℤ × SpnValue × SpnContext :=
  match spn_ctx_loadstring env c str with
  | (none, c1) => (-1, ret0, c1)
  | (some bc, c1) => spn_ctx_execbytecode env c1 bc ret0

/-- `spn_ctx_execsrcfile` (`ctx.c:175`). -/
def spn_ctx_execsrcfile (env : CtxEnv) (c : SpnContext) (fname : String)
    (ret0 : SpnValue) : ℤ × SpnValue × SpnContext :=
  match spn_ctx_loadsrcfile env c fname with
  | (none, c1) => (-1, ret0, c1)
  | (some bc, c1) => spn_ctx_execbytecode env c1 bc ret0

/-- `spn_ctx_execobjfile` (`ctx.c:185`). -/
def spn_ctx_execobjfile (env : CtxEnv) (c : SpnContext) (fname : String)
    (ret0 : SpnValue) : ℤ × SpnValue × SpnContext :=
  match spn_ctx_loadobjfile env c fname with
  | (none, c1) => (-1, ret0, c1)
  | (some bc, c1) => spn_ctx_execbytecode env c1 bc ret0

/-- `spn_ctx_callfunc` (`ctx.c:213`): reset the discriminator, call through
the VM; nonzero sets `SPN_ERROR_RUNTIME`. -/
def spn_ctx_callfunc (env : CtxEnv) (c : SpnContext) (fn : SpnValue)
    (argv : List SpnValue) (ret0 : SpnValue) : ℤ × SpnValue × SpnContext :=
  let c0 := {c with errtype := SpnErrType.SPN_ERROR_OK}
  match env.vmCall fn argv with
  | Except.ok v => (0, v, c0)
  | Except.error m =>
    (-1, ret0, {c0 with errtype := SpnErrType.SPN_ERROR_RUNTIME,
                        vmErrmsg := some m})

/-- Modelled from the spec: `spn_ctx_clearerror` (used by `rtlb.c:3750` but
defined in no source shown) — "Calling `clearerror` resets the category to
`Ok`" (spec §7). -/
def spn_ctx_clearerror (c : SpnContext) : SpnContext :=
  {c with errtype := SpnErrType.SPN_ERROR_OK}

/-- Modelled from the spec: `spn_ctx_compile_expr` (used by `rtlb.c:3793`
but defined in no source shown) — "compile a single expression to a function
with implicit `return`" (spec §4.8), with the same ownership and error
discipline as `loadstring` (§4.8, §7): parse the expression (Syntax error on
failure), compile it (Semantic error on failure), retain the program. -/
def spn_ctx_compile_expr (env : CtxEnv) (c : SpnContext) (str : String) :
    Option ℕ × SpnContext :=
  let c0 := {c with errtype := SpnErrType.SPN_ERROR_OK}
  match env.parseExpr str with
  | Except.error m =>
    (none, {c0 with errtype := SpnErrType.SPN_ERROR_SYNTAX,
                    parserErrmsg := some m})
  | Except.ok ast =>
    match env.compile ast with
    | Except.error m =>
      (none, {c0 with errtype := SpnErrType.SPN_ERROR_SEMANTIC,
                      compilerErrmsg := some m})
    | Except.ok bc => (some bc, {c0 with bclist := bc :: c0.bclist})

/-- `rtlb_compile` (`rtlb.c:3729`): argument errors return a negative status
(the message goes to the VM via `spn_ctx_runtime_error`); otherwise the
status is 0 — a parse/compile failure stores the parser/compiler message as
a String result and CLEARS the error state, a success stores the function
value. -/
def rtlb_compile (env : CtxEnv) (c : SpnContext) (ret0 : SpnValue)
    (argv : List SpnValue) : NativeResult × SpnContext :=
  match argv with
  | [a0] =>
    match a0 with
    | SpnValue.str src =>
      match spn_ctx_loadstring env c (String.mk src) with
      | (some bc, c1) => (⟨0, SpnValue.func bc, none, []⟩, c1)
      | (none, c1) =>
        (⟨0, SpnValue.str ((spn_ctx_geterrmsg c1).getD "").toList, none, []⟩,
          spn_ctx_clearerror c1)
    | _ =>
      (nErr (-2) ret0 "argument must be a string",
        {c with vmErrmsg := some "argument must be a string"})
  | _ =>
    (nErr (-1) ret0 "exactly one argument is required",
      {c with vmErrmsg := some "exactly one argument is required"})

/-- `rtlb_exprtofn` (`rtlb.c:3779`): as `rtlb_compile`, over
`spn_ctx_compile_expr`. -/
def rtlb_exprtofn (env : CtxEnv) (c : SpnContext) (ret0 : SpnValue)
    (argv : List SpnValue) : NativeResult × SpnContext :=
  match argv with
  | [a0] =>
    match a0 with
    | SpnValue.str src =>
      match spn_ctx_compile_expr env c (String.mk src) with
      | (some fn, c1) => (⟨0, SpnValue.func fn, none, []⟩, c1)
      | (none, c1) =>
        (⟨0, SpnValue.str ((spn_ctx_geterrmsg c1).getD "").toList, none, []⟩,
          spn_ctx_clearerror c1)
    | _ =>
      (nErr (-2) ret0 "argument must be a string",
        {c with vmErrmsg := some "argument must be a string"})
  | _ =>
    (nErr (-1) ret0 "requiring exactly one argument",
      {c with vmErrmsg := some "requiring exactly one argument"})

/-- A concrete oracle used by the closed evaluation theorems: `"@@@"` fails
to parse with a fixed message, `"return ;"` compiles but fails at run time,
everything else parses, compiles to program 42 and evaluates to `Int 5`; no
file is readable. -/
def envDemo : CtxEnv :=
  ⟨fun s => if s = "@@@" then Except.error "syntax error near @@@"
            else Except.ok 1,
   fun _ => Except.ok 42,
   fun s => if s = "@@@" then Except.error "syntax error near @@@"
            else Except.ok 2,
   fun _ => Except.ok (SpnValue.int 5),
   fun _ _ => Except.ok SpnValue.nil,
   fun _ => none,
   fun _ => none⟩

/-! ## Result-slot behavior on error paths (for C3) -/

theorem printf_err_slot (ret0 : SpnValue) (argv : List SpnValue)
    (h : (rtlb_printf ret0 argv).status ≠ 0) :
    (rtlb_printf ret0 argv).ret = ret0 := by
  cases argv with
  | nil => rfl
  | cons a0 rest =>
    cases a0 with
    | str fmt =>
      cases hf : spn_string_format fmt rest with
      | ok res =>
        exfalso
        apply h
        simp [rtlb_printf, hf]
      | error m => simp [rtlb_printf, hf, nErr]
    | nil => rfl
    | bool b => rfl
    | int i => rfl
    | float f => rfl
    | arr xs => rfl
    | func fn => rfl
    | weakuserinfo p => rfl

theorem readfile_err_slot (fs : FsOracle) (ret0 : SpnValue)
    (argv : List SpnValue)
    (h : (rtlb_readfile fs ret0 argv).status ≠ 0) :
    (rtlb_readfile fs ret0 argv).ret = ret0 := by
  cases argv with
  | nil => rfl
  | cons a0 rest =>
    cases rest with
    | cons b0 rest2 => rfl
    | nil =>
      cases a0 with
      | str fname =>
        cases hf : fs (String.mk fname) with
        | cantOpen e => simp [rtlb_readfile, hf, nErr]
        | cantRead e => simp [rtlb_readfile, hf, nErr]
        | content data =>
          exfalso
          apply h
          simp [rtlb_readfile, hf, nOk]
      | nil => rfl
      | bool b => rfl
      | int i => rfl
      | float f => rfl
      | arr xs => rfl
      | func fn => rfl
      | weakuserinfo p => rfl

theorem aux_substr_err_slot (ret0 : SpnValue) (s : List Char)
    (b l : ℤ) (h : (rtlb_aux_substr ret0 s b l).status ≠ 0) :
    (rtlb_aux_substr ret0 s b l).ret = ret0 := by
  unfold rtlb_aux_substr at h ⊢
  split_ifs at h ⊢ with h1 h2 h3
  · rfl
  · rfl
  · rfl
  · exfalso
    apply h
    rfl

theorem substr_err_slot (ret0 : SpnValue) (argv : List SpnValue)
    (h : (rtlb_substr ret0 argv).status ≠ 0) :
    (rtlb_substr ret0 argv).ret = ret0 := by
  match argv with
  | [a0, a1, a2] =>
    cases a0 with
    | str s =>
      cases a1 with
      | int b =>
        cases a2 with
        | int l => exact aux_substr_err_slot ret0 s b l h
        | nil => rfl
        | bool _ => rfl
        | float _ => rfl
        | str _ => rfl
        | arr _ => rfl
        | func _ => rfl
        | weakuserinfo _ => rfl
      | nil => rfl
      | bool _ => rfl
      | float _ => rfl
      | str _ => rfl
      | arr _ => rfl
      | func _ => rfl
      | weakuserinfo _ => rfl
    | nil => rfl
    | bool _ => rfl
    | int _ => rfl
    | float _ => rfl
    | arr _ => rfl
    | func _ => rfl
    | weakuserinfo _ => rfl
  | [] => rfl
  | [_] => rfl
  | [_, _] => rfl
  | _ :: _ :: _ :: _ :: _ => rfl

theorem split_err_slot (ret0 : SpnValue) (argv : List SpnValue)
    (h : (rtlb_split ret0 argv).status ≠ 0) :
    (rtlb_split ret0 argv).ret = ret0 := by
  match argv with
  | [SpnValue.str hay, SpnValue.str needle] =>
    by_cases hn : needle.length = 0
    · simp [rtlb_split, hn, nErr]
    · exfalso
      apply h
      simp [rtlb_split, hn, nOk]
  | [] => rfl
  | [_] => rfl
  | _ :: _ :: _ :: _ => rfl
  | [SpnValue.str s, SpnValue.nil] => rfl
  | [SpnValue.str s, SpnValue.bool _] => rfl
  | [SpnValue.str s, SpnValue.int _] => rfl
  | [SpnValue.str s, SpnValue.float _] => rfl
  | [SpnValue.str s, SpnValue.arr _] => rfl
  | [SpnValue.str s, SpnValue.func _] => rfl
  | [SpnValue.str s, SpnValue.weakuserinfo _] => rfl
  | [SpnValue.nil, _] => rfl
  | [SpnValue.bool _, _] => rfl
  | [SpnValue.int _, _] => rfl
  | [SpnValue.float _, _] => rfl
  | [SpnValue.arr _, _] => rfl
  | [SpnValue.func _, _] => rfl
  | [SpnValue.weakuserinfo _, _] => rfl

theorem join_err_slot (ret0 : SpnValue) (argv : List SpnValue)
    (h : (rtlb_join ret0 argv).status ≠ 0) :
    (rtlb_join ret0 argv).ret = ret0 := by
  match argv with
  | [SpnValue.arr elems, SpnValue.str delim] =>
    cases hc : joinCheckStrings elems with
    | none => simp [rtlb_join, hc, nErr]
    | some pieces =>
      exfalso
      apply h
      simp [rtlb_join, hc, nOk]
  | [] => rfl
  | [_] => rfl
  | _ :: _ :: _ :: _ => rfl
  | [SpnValue.arr e, SpnValue.nil] => rfl
  | [SpnValue.arr e, SpnValue.bool _] => rfl
  | [SpnValue.arr e, SpnValue.int _] => rfl
  | [SpnValue.arr e, SpnValue.float _] => rfl
  | [SpnValue.arr e, SpnValue.arr _] => rfl
  | [SpnValue.arr e, SpnValue.func _] => rfl
  | [SpnValue.arr e, SpnValue.weakuserinfo _] => rfl
  | [SpnValue.nil, _] => rfl
  | [SpnValue.bool _, _] => rfl
  | [SpnValue.int _, _] => rfl
  | [SpnValue.float _, _] => rfl
  | [SpnValue.str _, _] => rfl
  | [SpnValue.func _, _] => rfl
  | [SpnValue.weakuserinfo _, _] => rfl

theorem range_err_slot (fuel : ℕ) (ret0 : SpnValue) (argv : List SpnValue)
    (r : NativeResult) (hr : rtlb_range fuel ret0 argv = some r)
    (h : r.status ≠ 0) : r.ret = ret0 := by
  unfold rtlb_range at hr
  split at hr
  · cases hr
    rfl
  · split at hr
    · cases hr
      rfl
    · split at hr
      · split at hr
        · cases hr
          exact absurd rfl h
        · cases hr
          rfl
      · split at hr
        · cases hr
          exact absurd rfl h
        · cases hr
          rfl
      · split at hr
        · cases hr
        · cases hr
          exact absurd rfl h
      · cases hr
        rfl

theorem execstring_err_slot (env : CtxEnv) (c : SpnContext) (str : String)
    (ret0 : SpnValue)
    (h : (spn_ctx_execstring env c str ret0).1 ≠ 0) :
    (spn_ctx_execstring env c str ret0).2.1 = ret0 := by
  cases hload : spn_ctx_loadstring env c str with
  | mk obc c1 =>
    cases obc with
    | none =>
      unfold spn_ctx_execstring
      rw [hload]
    | some bc =>
      cases hvm : env.vmExec bc with
      | ok v =>
        exfalso
        apply h
        unfold spn_ctx_execstring
        rw [hload]
        show (spn_ctx_execbytecode env c1 bc ret0).1 = 0
        unfold spn_ctx_execbytecode
        rw [hvm]
      | error m =>
        unfold spn_ctx_execstring
        rw [hload]
        show (spn_ctx_execbytecode env c1 bc ret0).2.1 = ret0
        unfold spn_ctx_execbytecode
        rw [hvm]

theorem concatGo_err_arr :
    ∀ (argv : List SpnValue) (acc : List SpnValue) (idx : ℕ),
      (concatGo acc idx argv).status ≠ 0 →
      ∃ l, (concatGo acc idx argv).ret = SpnValue.arr l := by
  intro argv
  induction argv with
  | nil =>
    intro acc idx h
    exact absurd rfl h
  | cons a rest ih =>
    intro acc idx h
    cases a with
    | arr xs => exact ih (acc ++ xs) (idx + 1) h
    | nil => exact ⟨acc, rfl⟩
    | bool _ => exact ⟨acc, rfl⟩
    | int _ => exact ⟨acc, rfl⟩
    | float _ => exact ⟨acc, rfl⟩
    | str _ => exact ⟨acc, rfl⟩
    | func _ => exact ⟨acc, rfl⟩
    | weakuserinfo _ => exact ⟨acc, rfl⟩

/-- Claim C1: `spn_ctx_loadstring` as implemented in `ctx.c:93` takes no
result out-parameter and returns no status: it hands back the raw bytecode
pointer itself (embedded: the bytecode identifier), `NULL` on failure —
evaluated here on a source that parses and compiles.  This contradicts the
declaration and documentation in `ctx.h:40-47` (status plus `SpnValue`
out-parameter), which is what the claim describes. -/
theorem claim_C1 :
    spn_ctx_loadstring envDemo spn_ctx_new "return 2 + 3" =
      (some 42,
        ⟨SpnErrType.SPN_ERROR_OK, none, none, none, none, [42]⟩) := rfl

/-- Claim C3, counterexample: `rtlb_concat` called with a non-array second
argument returns a nonzero status, yet the caller's result slot — which
started as `Nil` — has been overwritten with the partially built array
(`rtlb.c:2044` writes it before validation; `rtlb.c:2057` releases but does
not reset it).  So it is not true that every standard-library callable
leaves the result slot unchanged on an error return. -/
theorem claim_C3_counterexample :
    (rtlb_concat SpnValue.nil
      [SpnValue.arr [SpnValue.int 1], SpnValue.str ['x']]).status ≠ 0 ∧
    (rtlb_concat SpnValue.nil
      [SpnValue.arr [SpnValue.int 1], SpnValue.str ['x']]).ret ≠
      SpnValue.nil := by
  constructor
  · intro h
    have h2 : (-1 : ℤ) = 0 := h
    cases h2
  · intro h
    have h2 : SpnValue.arr [SpnValue.int 1] = SpnValue.nil := h
    cases h2

/-- Claim C3, amended: the embedded standard-library callables that take a
result slot (`printf`, `readfile`, `substr`, `split`, `join`, `range`) and
the `execstring` context entry point leave the slot unchanged whenever they
return nonzero (`rtlb_sort` never writes the slot at all); `rtlb_concat` is
the exception: it writes the result array into the slot before validating
its arguments, so on its error path the slot holds the partially built
array. -/
theorem claim_C3 :
    (∀ ret0 argv, (rtlb_printf ret0 argv).status ≠ 0 →
      (rtlb_printf ret0 argv).ret = ret0)
    ∧ (∀ fs ret0 argv, (rtlb_readfile fs ret0 argv).status ≠ 0 →
      (rtlb_readfile fs ret0 argv).ret = ret0)
    ∧ (∀ ret0 argv, (rtlb_substr ret0 argv).status ≠ 0 →
      (rtlb_substr ret0 argv).ret = ret0)
    ∧ (∀ ret0 argv, (rtlb_split ret0 argv).status ≠ 0 →
      (rtlb_split ret0 argv).ret = ret0)
    ∧ (∀ ret0 argv, (rtlb_join ret0 argv).status ≠ 0 →
      (rtlb_join ret0 argv).ret = ret0)
    ∧ (∀ fuel ret0 argv r, rtlb_range fuel ret0 argv = some r →
      r.status ≠ 0 → r.ret = ret0)
    ∧ (∀ env c str ret0, (spn_ctx_execstring env c str ret0).1 ≠ 0 →
      (spn_ctx_execstring env c str ret0).2.1 = ret0)
    ∧ (∀ ret0 argv, (rtlb_concat ret0 argv).status ≠ 0 →
      ∃ l, (rtlb_concat ret0 argv).ret = SpnValue.arr l) :=
  ⟨printf_err_slot, readfile_err_slot, substr_err_slot, split_err_slot,
    join_err_slot, range_err_slot, execstring_err_slot,
    fun ret0 argv h => concatGo_err_arr argv [] 1 h⟩

/-- Claim C4, counterexample: `printf("%s=%d", "x", 7)` expands to the
three bytes `x=7`, so `rtlb_printf` writes 3 bytes and returns `Int(3)` —
not `Int(4)` as the claim (following spec §8 scenario 4) states. -/
theorem claim_C4_counterexample :
    rtlb_printf SpnValue.nil
      [SpnValue.str "%s=%d".toList, SpnValue.str ['x'], SpnValue.int 7] =
        ⟨0, SpnValue.int 3, none, "x=7".toList⟩ ∧
    SpnValue.int 3 ≠ SpnValue.int 4 := by
  constructor
  · rfl
  · intro h
    have h2 : (3 : ℤ) = 4 := by
      injection h
    cases h2

/-- Claim C4, amended: whenever the format engine succeeds, `rtlb_printf`
writes exactly the expanded string to stdout and returns its byte count as
an Int; in particular `printf("%s=%d", "x", 7)` writes `x=7` (no trailing
newline) and returns `Int(3)`. -/
theorem claim_C4 :
    (∀ ret0 fmt args res, spn_string_format fmt args = Except.ok res →
      rtlb_printf ret0 (SpnValue.str fmt :: args) =
        ⟨0, SpnValue.int res.length, none, res⟩)
    ∧ rtlb_printf SpnValue.nil
        [SpnValue.str "%s=%d".toList, SpnValue.str ['x'], SpnValue.int 7] =
          ⟨0, SpnValue.int 3, none, "x=7".toList⟩ := by
  constructor
  · intro ret0 fmt args res h
    have e : rtlb_printf ret0 (SpnValue.str fmt :: args) =
        match spn_string_format fmt args with
        | Except.ok res => ⟨0, SpnValue.int res.length, none, res⟩
        | Except.error m =>
          nErr (-3) ret0 ("error in format string: " ++ m) := rfl
    rw [e, h]
  · rfl

/-- Claim C5: splitting on an empty separator fails with a runtime error;
for every non-empty separator, `split` succeeds and `join` with the same
separator reproduces the original string exactly; and `split` keeps empty
leading and trailing pieces (`",a,"` split on `","` is `["", "a", ""]`). -/
theorem claim_C5 (ret0 ret1 : SpnValue) (s sep : List Char) :
    (sep = [] →
      rtlb_split ret0 [SpnValue.str s, SpnValue.str sep] =
        nErr (-3) ret0 "cannot split on empty string")
    ∧ (sep ≠ [] →
      rtlb_split ret0 [SpnValue.str s, SpnValue.str sep] =
        nOk (SpnValue.arr ((spn_splitList sep s).map SpnValue.str)) [] ∧
      rtlb_join ret1
        [SpnValue.arr ((spn_splitList sep s).map SpnValue.str),
          SpnValue.str sep] =
        nOk (SpnValue.str s) [])
    ∧ spn_splitList [','] [',', 'a', ','] = [[], ['a'], []] := by
  refine ⟨?_, ?_, rfl⟩
  · intro hsep
    subst hsep
    rfl
  · intro hsep
    have hlen : ¬ sep.length = 0 := by
      intro h0
      exact hsep (List.eq_nil_of_length_eq_zero h0)
    constructor
    · have e : rtlb_split ret0 [SpnValue.str s, SpnValue.str sep] =
          if sep.length = 0 then nErr (-3) ret0 "cannot split on empty string"
          else
            nOk (SpnValue.arr ((spn_splitList sep s).map SpnValue.str)) [] :=
        rfl
      rw [e, if_neg hlen]
    · have e2 : rtlb_join ret1
          [SpnValue.arr ((spn_splitList sep s).map SpnValue.str),
            SpnValue.str sep] =
          match joinCheckStrings ((spn_splitList sep s).map SpnValue.str) with
          | none => nErr (-3) ret1 "array must contain strings only"
          | some pieces =>
            nOk (SpnValue.str (spn_joinPieces sep pieces)) [] := rfl
      rw [e2, joinCheckStrings_map_str]
      show nOk (SpnValue.str (spn_joinPieces sep (spn_splitList sep s))) [] = _
      rw [split_join_roundtrip sep s hlen]

/-- Claim C6: `substr(s, start, len)` succeeds exactly under the bounds
`0 <= start <= length s`, `0 <= len`, `start + len <= length s`, returning
the fresh substring of length `len` that starts at `start`; each violated
bound produces the runtime error naming that bound (the code additionally
reports `len > length s`, which the bounds already exclude, through the
length message); and `substr(s, 0, len s) = s`, `substr(s, i, 0) = ""`. -/
theorem claim_C6 (ret0 : SpnValue) (s : List Char) (b l : ℤ) :
    ((b < 0 ∨ (s.length : ℤ) < b) →
      rtlb_substr ret0 [SpnValue.str s, SpnValue.int b, SpnValue.int l] =
        nErr (-1) ret0 "starting index is negative or too high")
    ∧ (0 ≤ b → b ≤ (s.length : ℤ) → (l < 0 ∨ (s.length : ℤ) < l) →
      rtlb_substr ret0 [SpnValue.str s, SpnValue.int b, SpnValue.int l] =
        nErr (-2) ret0 "length is negative or too big")
    ∧ (0 ≤ b → b ≤ (s.length : ℤ) → 0 ≤ l → l ≤ (s.length : ℤ) →
        (s.length : ℤ) < b + l →
      rtlb_substr ret0 [SpnValue.str s, SpnValue.int b, SpnValue.int l] =
        nErr (-3) ret0 "end of substring is out of bounds")
    ∧ (0 ≤ b → b ≤ (s.length : ℤ) → 0 ≤ l → b + l ≤ (s.length : ℤ) →
      rtlb_substr ret0 [SpnValue.str s, SpnValue.int b, SpnValue.int l] =
        nOk (SpnValue.str ((s.drop b.toNat).take l.toNat)) [] ∧
      ((s.drop b.toNat).take l.toNat).length = l.toNat)
    ∧ rtlb_substr ret0
        [SpnValue.str s, SpnValue.int 0, SpnValue.int (s.length : ℤ)] =
        nOk (SpnValue.str s) []
    ∧ (0 ≤ b → b ≤ (s.length : ℤ) →
      rtlb_substr ret0 [SpnValue.str s, SpnValue.int b, SpnValue.int 0] =
        nOk (SpnValue.str []) []) := by
  refine ⟨?_, ?_, ?_, ?_, ?_, ?_⟩
  · intro hb
    show rtlb_aux_substr ret0 s b l = _
    unfold rtlb_aux_substr
    split_ifs with h1 h2 h3 <;> first | rfl | (exfalso; omega)
  · intro hb1 hb2 hl
    show rtlb_aux_substr ret0 s b l = _
    unfold rtlb_aux_substr
    split_ifs with h1 h2 h3 <;> first | rfl | (exfalso; omega)
  · intro hb1 hb2 hl1 hl2 hbl
    show rtlb_aux_substr ret0 s b l = _
    unfold rtlb_aux_substr
    split_ifs with h1 h2 h3 <;> first | rfl | (exfalso; omega)
  · intro hb1 hb2 hl1 hbl
    constructor
    · show rtlb_aux_substr ret0 s b l = _
      unfold rtlb_aux_substr
      split_ifs with h1 h2 h3 <;> first | rfl | (exfalso; omega)
    · rw [List.length_take, List.length_drop]
      omega
  · show rtlb_aux_substr ret0 s 0 (s.length : ℤ) = _
    unfold rtlb_aux_substr
    split_ifs with h1 h2 h3 <;> first
      | (exfalso; omega)
      | (simp [List.take_length])
  · intro hb1 hb2
    show rtlb_aux_substr ret0 s b 0 = _
    unfold rtlb_aux_substr
    split_ifs with h1 h2 h3 <;> first
      | (exfalso; omega)
      | (simp)

/-- Claim C2: every load/exec entry point of the context resets the
discriminator and, on failure, sets exactly the failing component's
category — Syntax for a parse failure, Semantic for a compile failure,
Generic for an unreadable source/object file, Runtime for a nonzero VM
execution or call — while success leaves it Ok; and `geterrmsg` is null for
Ok and otherwise reads the message owned by the component matching the
current category. -/
theorem claim_C2 (env : CtxEnv) (c : SpnContext) :
    (∀ str m, env.parse str = Except.error m →
      spn_ctx_loadstring env c str =
        (none, {c with errtype := SpnErrType.SPN_ERROR_SYNTAX,
                       parserErrmsg := some m}) ∧
      spn_ctx_geterrmsg (spn_ctx_loadstring env c str).2 = some m)
    ∧ (∀ str ast m, env.parse str = Except.ok ast →
        env.compile ast = Except.error m →
      spn_ctx_loadstring env c str =
        (none, {c with errtype := SpnErrType.SPN_ERROR_SEMANTIC,
                       compilerErrmsg := some m}) ∧
      spn_ctx_geterrmsg (spn_ctx_loadstring env c str).2 = some m)
    ∧ (∀ str ast bc, env.parse str = Except.ok ast →
        env.compile ast = Except.ok bc →
      spn_ctx_loadstring env c str =
        (some bc, {c with errtype := SpnErrType.SPN_ERROR_OK,
                          bclist := bc :: c.bclist}) ∧
      spn_ctx_geterrmsg (spn_ctx_loadstring env c str).2 = none)
    ∧ (∀ fname, env.readTextFile fname = none →
      spn_ctx_loadsrcfile env c fname =
        (none, {c with
          errtype := SpnErrType.SPN_ERROR_GENERIC,
          ctxErrmsg :=
            some "Sparkling: I/O error: could not read source file"}) ∧
      spn_ctx_geterrmsg (spn_ctx_loadsrcfile env c fname).2 =
        some "Sparkling: I/O error: could not read source file")
    ∧ (∀ fname, env.readBinaryFile fname = none →
      spn_ctx_loadobjfile env c fname =
        (none, {c with
          errtype := SpnErrType.SPN_ERROR_GENERIC,
          ctxErrmsg :=
            some "Sparkling: I/O error: could not read object file"}))
    ∧ (∀ fname bc, env.readBinaryFile fname = some bc →
      spn_ctx_loadobjfile env c fname =
        (some bc, {c with errtype := SpnErrType.SPN_ERROR_OK,
                          bclist := bc :: c.bclist}))
    ∧ (∀ bc ret0 m, env.vmExec bc = Except.error m →
      spn_ctx_execbytecode env c bc ret0 =
        (-1, ret0, {c with errtype := SpnErrType.SPN_ERROR_RUNTIME,
                           vmErrmsg := some m}) ∧
      spn_ctx_geterrmsg (spn_ctx_execbytecode env c bc ret0).2.2 = some m)
    ∧ (∀ bc ret0 v, env.vmExec bc = Except.ok v →
      spn_ctx_execbytecode env c bc ret0 =
        (0, v, {c with errtype := SpnErrType.SPN_ERROR_OK}))
    ∧ (∀ fn argv ret0 m, env.vmCall fn argv = Except.error m →
      spn_ctx_callfunc env c fn argv ret0 =
        (-1, ret0, {c with errtype := SpnErrType.SPN_ERROR_RUNTIME,
                           vmErrmsg := some m}))
    ∧ (∀ fn argv ret0 v, env.vmCall fn argv = Except.ok v →
      spn_ctx_callfunc env c fn argv ret0 =
        (0, v, {c with errtype := SpnErrType.SPN_ERROR_OK}))
    ∧ (∀ str ast bc ret0 m, env.parse str = Except.ok ast →
        env.compile ast = Except.ok bc → env.vmExec bc = Except.error m →
      spn_ctx_execstring env c str ret0 =
        (-1, ret0, {c with errtype := SpnErrType.SPN_ERROR_RUNTIME,
                           vmErrmsg := some m,
                           bclist := bc :: c.bclist}))
    ∧ (∀ c2 : SpnContext, c2.errtype = SpnErrType.SPN_ERROR_OK →
      spn_ctx_geterrmsg c2 = none) := by
  refine ⟨?_, ?_, ?_, ?_, ?_, ?_, ?_, ?_, ?_, ?_, ?_, ?_⟩
  · intro str m h
    have e : spn_ctx_loadstring env c str =
        (none, {c with errtype := SpnErrType.SPN_ERROR_SYNTAX,
                       parserErrmsg := some m}) := by
      unfold spn_ctx_loadstring
      rw [h]
    exact ⟨e, by rw [e]; rfl⟩
  · intro str ast m hp hc
    have e : spn_ctx_loadstring env c str =
        (none, {c with errtype := SpnErrType.SPN_ERROR_SEMANTIC,
                       compilerErrmsg := some m}) := by
      simp only [spn_ctx_loadstring, hp, hc]
    exact ⟨e, by rw [e]; rfl⟩
  · intro str ast bc hp hc
    have e : spn_ctx_loadstring env c str =
        (some bc, {c with errtype := SpnErrType.SPN_ERROR_OK,
                          bclist := bc :: c.bclist}) := by
      simp only [spn_ctx_loadstring, hp, hc]
    exact ⟨e, by rw [e]; rfl⟩
  · intro fname h
    have e : spn_ctx_loadsrcfile env c fname =
        (none, {c with
          errtype := SpnErrType.SPN_ERROR_GENERIC,
          ctxErrmsg :=
            some "Sparkling: I/O error: could not read source file"}) := by
      unfold spn_ctx_loadsrcfile
      rw [h]
    exact ⟨e, by rw [e]; rfl⟩
  · intro fname h
    unfold spn_ctx_loadobjfile
    rw [h]
  · intro fname bc h
    unfold spn_ctx_loadobjfile
    rw [h]
  · intro bc ret0 m h
    have e : spn_ctx_execbytecode env c bc ret0 =
        (-1, ret0, {c with errtype := SpnErrType.SPN_ERROR_RUNTIME,
                           vmErrmsg := some m}) := by
      unfold spn_ctx_execbytecode
      rw [h]
    exact ⟨e, by rw [e]; rfl⟩
  · intro bc ret0 v h
    unfold spn_ctx_execbytecode
    rw [h]
  · intro fn argv ret0 m h
    unfold spn_ctx_callfunc
    rw [h]
  · intro fn argv ret0 v h
    unfold spn_ctx_callfunc
    rw [h]
  · intro str ast bc ret0 m hp hc hv
    have e : spn_ctx_loadstring env c str =
        (some bc, {c with errtype := SpnErrType.SPN_ERROR_OK,
                          bclist := bc :: c.bclist}) := by
      simp only [spn_ctx_loadstring, hp, hc]
    unfold spn_ctx_execstring
    rw [e]
    show spn_ctx_execbytecode env _ bc ret0 = _
    unfold spn_ctx_execbytecode
    rw [hv]
  · intro c2 h
    unfold spn_ctx_geterrmsg
    rw [h]

/-- A comparator implementing the built-in less-than ordering. -/
def ltCmp : CmpFn :=
  fun x y => some (SpnValue.bool (decide (spn_value_compare x y < 0)))

/-- Claim C7: with no comparator, an array of two or more elements that
contains a mutually uncomparable pair makes the sort abort with the typed
runtime error naming the two offending types and return nonzero; with a
comparator that returns non-Boolean values, the sort aborts with a runtime
error and returns nonzero; and the comparator is interpreted as the
less-than relation (sorting `[3,1,2]` with the less-than comparator yields
`[1,2,3]`, as does the built-in ordering). -/
theorem claim_C7 :
    (∀ (a : List SpnValue) (p q : ℕ), 2 ≤ a.length → p < a.length →
      q < a.length → p ≠ q →
      spn_values_comparable (aget a p) (aget a q) = false →
      ∃ z w, spn_values_comparable z w = false ∧
        rtlb_sort_core a none =
          some (Except.error
            (some (uncompMsg (spn_type_name z) (spn_type_name w)))) ∧
        sortStatusOf (rtlb_sort_core a none) ≠ 0)
    ∧ (∀ (a : List SpnValue) (f : CmpFn), 2 ≤ a.length →
      (∀ x y, ∃ r, f x y = some r ∧ r.isbool = false) →
      rtlb_sort_core a (some f) =
        some (Except.error (some cmpBoolMsg)) ∧
      sortStatusOf (rtlb_sort_core a (some f)) ≠ 0)
    ∧ rtlb_sort_core [SpnValue.int 3, SpnValue.int 1, SpnValue.int 2]
        (some ltCmp) =
        some (Except.ok [SpnValue.int 1, SpnValue.int 2, SpnValue.int 3])
    ∧ rtlb_sort_core [SpnValue.int 3, SpnValue.int 1, SpnValue.int 2] none =
        some (Except.ok [SpnValue.int 1, SpnValue.int 2, SpnValue.int 3]) := by
  refine ⟨?_, ?_, rfl, rfl⟩
  · intro a p q h2 hp hq hpq hunc
    rcases sort_core_uncomp a h2 p q hp hq hpq hunc with ⟨z, w, hzw, heq⟩
    refine ⟨z, w, hzw, heq, ?_⟩
    rw [heq]
    intro hcon
    have h3 : (-1 : ℤ) = 0 := hcon
    cases h3
  · intro a f h2 hf
    have heq := sort_core_nonBool a h2 f hf
    refine ⟨heq, ?_⟩
    rw [heq]
    intro hcon
    have h3 : (-1 : ℤ) = 0 := hcon
    cases h3

theorem add_nan_left (y : SpnFloat) :
    SpnFloat.add SpnFloat.nan y = SpnFloat.nan := by
  cases y <;> rfl

theorem rangeTerm_nan_begin (s : SpnFloat) :
    ∀ i, rangeTerm SpnFloat.nan s i = SpnFloat.nan := by
  intro i
  cases i with
  | zero => rfl
  | succ m =>
    show SpnFloat.add SpnFloat.nan
      (SpnFloat.mul s (SpnFloat.ofNat (m + 1))) = SpnFloat.nan
    exact add_nan_left _

theorem intRangeList_getD (b e : ℤ) (k : ℕ) (hk : k < (e - b).toNat) :
    (intRangeList b e).getD k SpnValue.nil = SpnValue.int (b + k) := by
  unfold intRangeList
  rw [List.getD_eq_getElem?_getD, List.getElem?_map, List.getElem?_range hk]
  rfl

/-- Claim C8: `range(n)` is the integer array `[0, .., n-1]`; `range(a,b)`
is `[a, .., b-1]` (witnessed by the element formula); and for a positive
step, `range(a,b,step)` is the float sequence `a, a+step, a+2*step, ...`
cut exactly at the boundary: there is a count `K` such that every term
before `K` passes `x <= b`, the `K`-th term fails it, every term that is
`<= b` is one of the first `K`, and with enough fuel the call returns
exactly those first `K` terms. -/
theorem claim_C8 :
    (∀ (fuel : ℕ) (ret0 : SpnValue) (n : ℤ),
      rtlb_range fuel ret0 [SpnValue.int n] =
        some (nOk (SpnValue.arr (intRangeList 0 n)) []))
    ∧ (∀ (fuel : ℕ) (ret0 : SpnValue) (b e : ℤ),
      rtlb_range fuel ret0 [SpnValue.int b, SpnValue.int e] =
        some (nOk (SpnValue.arr (intRangeList b e)) []))
    ∧ (∀ (b e : ℤ) (k : ℕ), k < (e - b).toNat →
      (intRangeList b e).getD k SpnValue.nil = SpnValue.int (b + k))
    ∧ (∀ (ret0 : SpnValue) (a b s : SpnFloat),
      SpnFloat.fgt s fzero = true →
      ∃ K : ℕ,
        (∀ i, i < K → SpnFloat.fle (rangeTerm a s i) b = true) ∧
        SpnFloat.fle (rangeTerm a s K) b = false ∧
        (∀ i, SpnFloat.fle (rangeTerm a s i) b = true → i < K) ∧
        (∀ fuel, K < fuel →
          rtlb_range fuel ret0
            [SpnValue.float a, SpnValue.float b, SpnValue.float s] =
          some (nOk (SpnValue.arr
            ((List.range K).map
              (fun i => SpnValue.float (rangeTerm a s i)))) []))) := by
  refine ⟨fun fuel ret0 n => rfl, fun fuel ret0 b e => rfl,
    intRangeList_getD, ?_⟩
  intro ret0 a b s hgt
  have hterm : range3Terminates a b s :=
    (range3Terminates_iff a b s).mpr (Or.inl hgt)
  have hterm2 : ∃ i, SpnFloat.fle (rangeTerm a s i) b = false := hterm
  have hbelow : ∀ i, i < Nat.find hterm2 →
      SpnFloat.fle (rangeTerm a s i) b = true := by
    intro i hi
    have hmin := Nat.find_min hterm2 hi
    cases hfe : SpnFloat.fle (rangeTerm a s i) b with
    | true => rfl
    | false => exact absurd hfe hmin
  refine ⟨Nat.find hterm2, hbelow, Nat.find_spec hterm2, ?_, ?_⟩
  · intro i hfle
    by_contra hnot
    push_neg at hnot
    rcases fgt_true_num s fzero hgt with ⟨fs, fz, hstep, hz, hlt⟩
    have hz0 : fz.toRat = 0 := by
      have h2 : Frac.ofInt 0 = fz := by injection hz
      rw [← h2, Frac.toRat_ofInt]
      norm_num
    rw [hz0] at hlt
    rcases fle_true_num _ _ hfle with ⟨xi, fb, hxi, hb, hle⟩
    cases ha : a with
    | nan =>
      rw [ha, rangeTerm_nan_begin s i] at hxi
      cases hxi
    | num fa =>
      rw [ha, hstep] at hxi
      rcases rangeTerm_num fa fs i with ⟨x1, hx1, hx1v⟩
      rw [hx1] at hxi
      have hxieq : x1 = xi := by injection hxi
      subst hxieq
      have hK := Nat.find_spec hterm2
      generalize hKg : Nat.find hterm2 = K at hK hnot
      rw [ha, hstep, hb] at hK
      rcases rangeTerm_num fa fs K with ⟨xK, hxK, hxKv⟩
      rw [hxK] at hK
      have hKgt : fb.toRat < xK.toRat := by
        by_contra hcon
        push_neg at hcon
        have : Frac.ble xK fb = true := (Frac.ble_iff xK fb).mpr hcon
        rw [show SpnFloat.fle (SpnFloat.num xK) (SpnFloat.num fb) =
            Frac.ble xK fb from rfl] at hK
        rw [this] at hK
        cases hK
      have hcast : ((K : ℚ)) ≤ (i : ℚ) := by
        exact_mod_cast hnot
      rw [hx1v] at hle
      rw [hxKv] at hKgt
      nlinarith
  · intro fuel hfuel
    have hloop := range3Loop_some_of_lt a b s (Nat.find hterm2)
      (Nat.find_spec hterm2) hbelow fuel 0 (Nat.zero_le _) (by omega)
    have e : rtlb_range fuel ret0
        [SpnValue.float a, SpnValue.float b, SpnValue.float s] =
        match range3Loop a b s fuel 0 with
        | none => none
        | some terms =>
          some (nOk (SpnValue.arr (terms.map SpnValue.float)) []) := rfl
    rw [e, hloop]
    simp only [Nat.sub_zero, Nat.zero_add, List.map_map]
    rfl

/-- Claim C9: `compile(src)` and `exprtofn(src)` report parse/compile
failures as SUCCESS: status 0 with the parser/compiler message as a String
result, after which the context's error state is cleared back to Ok; a
compiling source yields the function value with status 0; only a wrong
argument count or a non-string argument produces a nonzero status.
(`spn_ctx_clearerror` and `spn_ctx_compile_expr` are modelled from the spec;
see their definitions.) -/
theorem claim_C9 (env : CtxEnv) (c : SpnContext) (ret0 : SpnValue) :
    (∀ src m, env.parse (String.mk src) = Except.error m →
      rtlb_compile env c ret0 [SpnValue.str src] =
        (⟨0, SpnValue.str m.toList, none, []⟩,
          {c with errtype := SpnErrType.SPN_ERROR_OK,
                  parserErrmsg := some m}))
    ∧ (∀ src ast m, env.parse (String.mk src) = Except.ok ast →
        env.compile ast = Except.error m →
      rtlb_compile env c ret0 [SpnValue.str src] =
        (⟨0, SpnValue.str m.toList, none, []⟩,
          {c with errtype := SpnErrType.SPN_ERROR_OK,
                  compilerErrmsg := some m}))
    ∧ (∀ src ast bc, env.parse (String.mk src) = Except.ok ast →
        env.compile ast = Except.ok bc →
      rtlb_compile env c ret0 [SpnValue.str src] =
        (⟨0, SpnValue.func bc, none, []⟩,
          {c with errtype := SpnErrType.SPN_ERROR_OK,
                  bclist := bc :: c.bclist}))
    ∧ (rtlb_compile env c ret0 []).1.status = -1
    ∧ (rtlb_compile env c ret0 [SpnValue.int 5]).1.status = -2
    ∧ (∀ src m, env.parseExpr (String.mk src) = Except.error m →
      rtlb_exprtofn env c ret0 [SpnValue.str src] =
        (⟨0, SpnValue.str m.toList, none, []⟩,
          {c with errtype := SpnErrType.SPN_ERROR_OK,
                  parserErrmsg := some m}))
    ∧ (∀ src ast fn, env.parseExpr (String.mk src) = Except.ok ast →
        env.compile ast = Except.ok fn →
      rtlb_exprtofn env c ret0 [SpnValue.str src] =
        (⟨0, SpnValue.func fn, none, []⟩,
          {c with errtype := SpnErrType.SPN_ERROR_OK,
                  bclist := fn :: c.bclist}))
    ∧ (rtlb_exprtofn env c ret0 []).1.status = -1
    ∧ (rtlb_exprtofn env c ret0 [SpnValue.int 5]).1.status = -2 := by
  refine ⟨?_, ?_, ?_, rfl, rfl, ?_, ?_, rfl, rfl⟩
  · intro src m h
    have hl : spn_ctx_loadstring env c (String.mk src) =
        (none, {c with errtype := SpnErrType.SPN_ERROR_SYNTAX,
                       parserErrmsg := some m}) := by
      simp only [spn_ctx_loadstring, h]
    show (match spn_ctx_loadstring env c (String.mk src) with
      | (some bc, c1) => (NativeResult.mk 0 (SpnValue.func bc) none [], c1)
      | (none, c1) =>
        (NativeResult.mk 0
          (SpnValue.str ((spn_ctx_geterrmsg c1).getD "").toList) none [],
          spn_ctx_clearerror c1)) = _
    rw [hl]
    rfl
  · intro src ast m hp hc
    have hl : spn_ctx_loadstring env c (String.mk src) =
        (none, {c with errtype := SpnErrType.SPN_ERROR_SEMANTIC,
                       compilerErrmsg := some m}) := by
      simp only [spn_ctx_loadstring, hp, hc]
    show (match spn_ctx_loadstring env c (String.mk src) with
      | (some bc, c1) => (NativeResult.mk 0 (SpnValue.func bc) none [], c1)
      | (none, c1) =>
        (NativeResult.mk 0
          (SpnValue.str ((spn_ctx_geterrmsg c1).getD "").toList) none [],
          spn_ctx_clearerror c1)) = _
    rw [hl]
    rfl
  · intro src ast bc hp hc
    have hl : spn_ctx_loadstring env c (String.mk src) =
        (some bc, {c with errtype := SpnErrType.SPN_ERROR_OK,
                          bclist := bc :: c.bclist}) := by
      simp only [spn_ctx_loadstring, hp, hc]
    show (match spn_ctx_loadstring env c (String.mk src) with
      | (some bc, c1) => (NativeResult.mk 0 (SpnValue.func bc) none [], c1)
      | (none, c1) =>
        (NativeResult.mk 0
          (SpnValue.str ((spn_ctx_geterrmsg c1).getD "").toList) none [],
          spn_ctx_clearerror c1)) = _
    rw [hl]
  · intro src m h
    have hl : spn_ctx_compile_expr env c (String.mk src) =
        (none, {c with errtype := SpnErrType.SPN_ERROR_SYNTAX,
                       parserErrmsg := some m}) := by
      simp only [spn_ctx_compile_expr, h]
    show (match spn_ctx_compile_expr env c (String.mk src) with
      | (some fn, c1) => (NativeResult.mk 0 (SpnValue.func fn) none [], c1)
      | (none, c1) =>
        (NativeResult.mk 0
          (SpnValue.str ((spn_ctx_geterrmsg c1).getD "").toList) none [],
          spn_ctx_clearerror c1)) = _
    rw [hl]
    rfl
  · intro src ast fn hp hc
    have hl : spn_ctx_compile_expr env c (String.mk src) =
        (some fn, {c with errtype := SpnErrType.SPN_ERROR_OK,
                          bclist := fn :: c.bclist}) := by
      simp only [spn_ctx_compile_expr, hp, hc]
    show (match spn_ctx_compile_expr env c (String.mk src) with
      | (some fn, c1) => (NativeResult.mk 0 (SpnValue.func fn) none [], c1)
      | (none, c1) =>
        (NativeResult.mk 0
          (SpnValue.str ((spn_ctx_geterrmsg c1).getD "").toList) none [],
          spn_ctx_clearerror c1)) = _
    rw [hl]

/-- Claim C10: the three-argument `range` validates nothing about the step
(a numeric three-argument call can only return fuel exhaustion or a
status-0 success, never an error), and its construction loop exits exactly
when the step is positive, the `begin <= end` test fails (which any NaN
bound forces), or the step is NaN; in particular for every non-NaN
`begin <= end` with `step <= 0` the loop runs forever — the call returns no
result no matter the fuel. -/
theorem claim_C10 :
    (∀ a b step, range3Terminates a b step ↔
      (SpnFloat.fgt step fzero = true ∨ SpnFloat.fle a b = false ∨
        step = SpnFloat.nan))
    ∧ (∀ (ret0 : SpnValue) (fa fb fs : Frac) (fuel : ℕ),
        fa.toRat ≤ fb.toRat → fs.toRat ≤ 0 →
        rtlb_range fuel ret0
          [SpnValue.float (SpnFloat.num fa), SpnValue.float (SpnFloat.num fb),
            SpnValue.float (SpnFloat.num fs)] = none)
    ∧ (∀ (fuel : ℕ) (ret0 : SpnValue) (a b s : SpnFloat) (r : NativeResult),
        rtlb_range fuel ret0
          [SpnValue.float a, SpnValue.float b, SpnValue.float s] = some r →
        r.status = 0 ∧ r.err = none) := by
  refine ⟨range3Terminates_iff, ?_, ?_⟩
  · intro ret0 fa fb fs fuel hab hs
    have hall := range3_no_exit fa fb fs hab hs
    have e : rtlb_range fuel ret0
        [SpnValue.float (SpnFloat.num fa), SpnValue.float (SpnFloat.num fb),
          SpnValue.float (SpnFloat.num fs)] =
        match range3Loop (SpnFloat.num fa) (SpnFloat.num fb)
            (SpnFloat.num fs) fuel 0 with
        | none => none
        | some terms =>
          some (nOk (SpnValue.arr (terms.map SpnValue.float)) []) := rfl
    rw [e, range3Loop_none_of_all _ _ _ hall fuel 0]
  · intro fuel ret0 a b s r hr
    have e : rtlb_range fuel ret0
        [SpnValue.float a, SpnValue.float b, SpnValue.float s] =
        match range3Loop a b s fuel 0 with
        | none => none
        | some terms =>
          some (nOk (SpnValue.arr (terms.map SpnValue.float)) []) := rfl
    rw [e] at hr
    cases hloop : range3Loop a b s fuel 0 with
    | none =>
      rw [hloop] at hr
      cases hr
    | some terms =>
      rw [hloop] at hr
      cases hr
      exact ⟨rfl, rfl⟩

/-- A file system on which every open fails. -/
def fsDemo : FsOracle :=
  fun _ => ReadFileOutcome.cantOpen "No such file or directory"

/-- Witness for C2 at the concrete oracle: a parse failure sets Syntax and
`geterrmsg` reads the parser's message. -/
theorem claim_C2_witness :
    spn_ctx_loadstring envDemo spn_ctx_new "@@@" =
      (none, {spn_ctx_new with
        errtype := SpnErrType.SPN_ERROR_SYNTAX,
        parserErrmsg := some "syntax error near @@@"}) ∧
    spn_ctx_geterrmsg (spn_ctx_loadstring envDemo spn_ctx_new "@@@").2 =
      some "syntax error near @@@" :=
  (claim_C2 envDemo spn_ctx_new).1 "@@@" "syntax error near @@@" rfl

/-- Witness for C3 at concrete error returns. -/
theorem claim_C3_witness :
    (rtlb_printf (SpnValue.int 9) []).ret = SpnValue.int 9 ∧
    (rtlb_readfile fsDemo (SpnValue.int 9) [SpnValue.str ['f']]).ret =
      SpnValue.int 9 :=
  ⟨claim_C3.1 (SpnValue.int 9) [] (by decide),
    claim_C3.2.1 fsDemo (SpnValue.int 9) [SpnValue.str ['f']] (by decide)⟩

/-- Witness for C4 at a concrete successful expansion. -/
theorem claim_C4_witness :
    rtlb_printf SpnValue.nil
      (SpnValue.str "%s".toList :: [SpnValue.str ['x']]) =
      ⟨0, SpnValue.int (['x'] : List Char).length, none, ['x']⟩ :=
  claim_C4.1 SpnValue.nil "%s".toList [SpnValue.str ['x']] ['x'] rfl

/-- Witness for C5: the round trip on `",a,"` with separator `","`. -/
theorem claim_C5_witness :
    rtlb_split SpnValue.nil
      [SpnValue.str [',', 'a', ','], SpnValue.str [',']] =
      nOk (SpnValue.arr
        ((spn_splitList [','] [',', 'a', ',']).map SpnValue.str)) [] ∧
    rtlb_join SpnValue.nil
      [SpnValue.arr ((spn_splitList [','] [',', 'a', ',']).map SpnValue.str),
        SpnValue.str [',']] =
      nOk (SpnValue.str [',', 'a', ',']) [] :=
  (claim_C5 SpnValue.nil SpnValue.nil [',', 'a', ','] [',']).2.1 (by decide)

/-- Witness for C6: a concrete in-bounds slice and a concrete violated
start bound. -/
theorem claim_C6_witness :
    (rtlb_substr SpnValue.nil
      [SpnValue.str ['a', 'b', 'c'], SpnValue.int 1, SpnValue.int 2] =
      nOk (SpnValue.str
        ((['a', 'b', 'c'].drop (1 : ℤ).toNat).take (2 : ℤ).toNat)) [] ∧
      ((['a', 'b', 'c'].drop (1 : ℤ).toNat).take (2 : ℤ).toNat).length =
        (2 : ℤ).toNat) ∧
    rtlb_substr SpnValue.nil
      [SpnValue.str ['a', 'b', 'c'], SpnValue.int (-1), SpnValue.int 2] =
      nErr (-1) SpnValue.nil "starting index is negative or too high" :=
  ⟨(claim_C6 SpnValue.nil ['a', 'b', 'c'] 1 2).2.2.2.1
      (by decide) (by decide) (by decide) (by decide),
    (claim_C6 SpnValue.nil ['a', 'b', 'c'] (-1) 2).1 (by decide)⟩

/-- Witness for C7: sorting `[1, "a"]` with the built-in ordering aborts
with the typed error. -/
theorem claim_C7_witness :
    ∃ z w, spn_values_comparable z w = false ∧
      rtlb_sort_core [SpnValue.int 1, SpnValue.str ['a']] none =
        some (Except.error
          (some (uncompMsg (spn_type_name z) (spn_type_name w)))) ∧
      sortStatusOf
        (rtlb_sort_core [SpnValue.int 1, SpnValue.str ['a']] none) ≠ 0 :=
  claim_C7.1 [SpnValue.int 1, SpnValue.str ['a']] 0 1
    (by decide) (by decide) (by decide) (by decide) (by decide)

/-- Witness for C8: `range(0, 1, 1/4)` — positive step. -/
theorem claim_C8_witness :
    ∃ K : ℕ,
      (∀ i, i < K → SpnFloat.fle
        (rangeTerm (SpnFloat.num ⟨0, 0⟩) (SpnFloat.num ⟨1, 3⟩) i)
        (SpnFloat.num ⟨1, 0⟩) = true) ∧
      SpnFloat.fle
        (rangeTerm (SpnFloat.num ⟨0, 0⟩) (SpnFloat.num ⟨1, 3⟩) K)
        (SpnFloat.num ⟨1, 0⟩) = false ∧
      (∀ i, SpnFloat.fle
        (rangeTerm (SpnFloat.num ⟨0, 0⟩) (SpnFloat.num ⟨1, 3⟩) i)
        (SpnFloat.num ⟨1, 0⟩) = true → i < K) ∧
      (∀ fuel, K < fuel →
        rtlb_range fuel SpnValue.nil
          [SpnValue.float (SpnFloat.num ⟨0, 0⟩),
            SpnValue.float (SpnFloat.num ⟨1, 0⟩),
            SpnValue.float (SpnFloat.num ⟨1, 3⟩)] =
        some (nOk (SpnValue.arr
          ((List.range K).map (fun i => SpnValue.float
            (rangeTerm (SpnFloat.num ⟨0, 0⟩) (SpnFloat.num ⟨1, 3⟩) i)))) [])) :=
  claim_C8.2.2.2 SpnValue.nil (SpnFloat.num ⟨0, 0⟩) (SpnFloat.num ⟨1, 0⟩)
    (SpnFloat.num ⟨1, 3⟩) (by decide)

/-- Witness for C9 at the concrete oracle: compiling `"@@@"` reports the
parser message as a String result with status 0 and error state Ok. -/
theorem claim_C9_witness :
    rtlb_compile envDemo spn_ctx_new SpnValue.nil
      [SpnValue.str "@@@".toList] =
      (⟨0, SpnValue.str ("syntax error near @@@" : String).toList, none, []⟩,
        {spn_ctx_new with
          errtype := SpnErrType.SPN_ERROR_OK,
          parserErrmsg := some "syntax error near @@@"}) :=
  (claim_C9 envDemo spn_ctx_new SpnValue.nil).1 "@@@".toList
    "syntax error near @@@" rfl

/-- Witness for C10: `range(0, 0, 0)` never returns, whatever the fuel. -/
theorem claim_C10_witness :
    rtlb_range 7 SpnValue.nil
      [SpnValue.float (SpnFloat.num ⟨0, 0⟩),
        SpnValue.float (SpnFloat.num ⟨0, 0⟩),
        SpnValue.float (SpnFloat.num ⟨0, 0⟩)] = none :=
  claim_C10.2.1 SpnValue.nil ⟨0, 0⟩ ⟨0, 0⟩ ⟨0, 0⟩ 7
    (le_refl _) (le_of_eq (by simp [Frac.toRat]))
